import Mathlib

/-!
Verification of the `distributed-keystore` C repository against its
natural-language specification.

The development is a shallow embedding: each C function relevant to the
claims is translated into a pure, executable Lean definition.  Machine
integers (`uint32_t`) are modelled as `Nat` masked by `2 ^ 32` at every
operation where C arithmetic would wrap; C strings are modelled as the
list of their bytes before the terminating NUL (so `strlen` is
`List.length` and `strcmp`-equality is list equality); byte buffers are
`List Nat` with each element the value of one `uint8_t`; fallible
allocation sites that the claims implicitly assume to succeed
(`malloc` returning non-NULL, `pthread_*_init` returning 0) are modelled
as succeeding, and NULL-pointer arguments that the embedded callers never
produce are not represented.  Mutable state reached through the global
variables of the C sources is threaded explicitly.
-/

namespace Keystore

/-! ## Machine-arithmetic helpers (the embedding of `uint32_t`) -/

/-- Modulus of 32-bit unsigned arithmetic. -/
def U32 : Nat := 4294967296

/-- Reduction modulo `2 ^ 32`, i.e. the implicit wrap-around of `uint32_t`. -/
def mask32 (x : Nat) : Nat := x % U32

/-! ## Hasher — embedding of `hash_functions.c` (src/unnamed/part_008)

Source constants: `hash_size = 32`, `block_size = 4`,
`block_mix_constant_1 = 0xcc9e2d51`, `block_mix_constant_2 = 0x1b873593`,
`block_rotation_bits = 15`, `hash_rotation_bits = 13`,
`hash_multiplier = 5`, `hash_addition_constant = 0xe6546b64`,
`tailing_bytes_shift_1 = 16`, `tailing_bytes_shift_2 = 8`,
`finalization_shift_1 = 16`, `finalization_shift_2 = 13`,
`finalization_multiplier_1 = 0x85ebca6b`,
`finalization_multiplier_2 = 0xc2b2ae35`. -/

def block_mix_constant_1 : Nat := 0xcc9e2d51
def block_mix_constant_2 : Nat := 0x1b873593
def hash_addition_constant : Nat := 0xe6546b64
def finalization_multiplier_1 : Nat := 0x85ebca6b
def finalization_multiplier_2 : Nat := 0xc2b2ae35

/-- Embedding of `left_circular_rotate(data, rotation_bits, 32)`:
`(data << r) | (data >> (32 - r))` on `uint32_t`. -/
def left_circular_rotate (data rotation_bits : Nat) : Nat :=
  mask32 (data <<< rotation_bits) ||| (mask32 data >>> (32 - rotation_bits))

/-- Embedding of `process_block_data_to_hash(block_data, hash)`. -/
def process_block_data_to_hash (block_data hash : Nat) : Nat :=
  let bd := mask32 (block_data * block_mix_constant_1)
  let bd := left_circular_rotate bd 15
  let bd := mask32 (bd * block_mix_constant_2)
  Nat.xor hash bd

/-- Value of the byte at index `i` of the key; out-of-range reads never
happen on the C side because callers stay below `strlen`/the block count.
The `% 256` is the `uint8_t` type of the C pointer. -/
def byteAt (data : List Nat) (i : Nat) : Nat := data.getD i 0 % 256

/-- The 32-bit little-endian word `blocks[i]` read by `process_blocks`:
for `i = -block_count .. -1` the C pointer arithmetic
`(uint32_t*)(data + block_count*4) + i` resolves to the 4 bytes starting
at offset `4*j` where `j = block_count + i`, assembled little-endian
(the x86 target of the repository). -/
def word_at (data : List Nat) (j : Nat) : Nat :=
  byteAt data (4 * j) + 256 * byteAt data (4 * j + 1) +
    65536 * byteAt data (4 * j + 2) + 16777216 * byteAt data (4 * j + 3)

/-- One iteration of the `process_blocks` loop body. -/
def process_blocks_step (hash block_data : Nat) : Nat :=
  let h := process_block_data_to_hash block_data hash
  let h := left_circular_rotate h 13
  mask32 (h * 5 + hash_addition_constant)

/-- Embedding of `process_blocks(block_count, hash, data)`: the loop
`for (i = -block_count; i; i++)` visits the words `0 .. block_count - 1`
of the input in ascending order. -/
def process_blocks (block_count hash : Nat) (data : List Nat) : Nat :=
  (List.range block_count).foldl (fun h j => process_blocks_step h (word_at data j)) hash

/-- Embedding of `process_tailing_bytes(block_count, hash, data, len)`:
the switch with fall-through XORs in up to 3 trailing bytes. -/
def process_tailing_bytes (block_count hash : Nat) (data : List Nat) (len : Nat) : Nat :=
  let tail_bytes := len % 4
  if tail_bytes = 0 then hash
  else
    let bd : Nat := 0
    let bd := if 3 ≤ tail_bytes then Nat.xor bd (byteAt data (4 * block_count + 2) <<< 16) else bd
    let bd := if 2 ≤ tail_bytes then Nat.xor bd (byteAt data (4 * block_count + 1) <<< 8) else bd
    let bd := Nat.xor bd (byteAt data (4 * block_count))
    process_block_data_to_hash bd hash

/-- Embedding of `finalization(hash, len)`.  Note that the C function
receives `len` but its body never uses it: there is no `hash ^= len`
step before the avalanche sequence. -/
def finalization (hash : Nat) (len : Nat) : Nat :=
  let h := Nat.xor hash (hash >>> 16)
  let h := mask32 (h * finalization_multiplier_1)
  let h := Nat.xor h (h >>> 13)
  let h := mask32 (h * finalization_multiplier_2)
  Nat.xor h (h >>> 16)

/-- Embedding of `hash_function_murmur_32(key, seed)` for a non-NULL key;
the key is the list of bytes before the NUL terminator, so
`strlen(key) = key.length`.  The `mask32 seed` is the `uint32_t`
parameter type. -/
def hash_function_murmur_32 (key : List Nat) (seed : Nat) : Nat :=
  let len := key.length
  let block_count := len / 4
  let h := mask32 seed
  let h := process_blocks block_count h key
  let h := process_tailing_bytes block_count h key len
  finalization h len

/-! ## Reference definition: published MurmurHash3 (32-bit)

The following definitions restate the published MurmurHash3_x86_32
algorithm as described by claim C3 (4-byte little-endian blocks, the mix
constants and rotations above, and the input length XOR-ed into the
state before the final avalanche).  They are deliberately structured as
a recursion over the byte list, independent of the loop embedding
above, so that comparing the two is meaningful. -/

/-- The published final avalanche (fmix32). -/
def fmix32 (hash : Nat) : Nat :=
  let h := Nat.xor hash (hash >>> 16)
  let h := mask32 (h * finalization_multiplier_1)
  let h := Nat.xor h (h >>> 13)
  let h := mask32 (h * finalization_multiplier_2)
  Nat.xor h (h >>> 16)

/-- Published per-block mix of one little-endian word into the state. -/
def murmurStep (h w : Nat) : Nat :=
  let k := mask32 (w * block_mix_constant_1)
  let k := left_circular_rotate k 15
  let k := mask32 (k * block_mix_constant_2)
  let h := Nat.xor h k
  let h := left_circular_rotate h 13
  mask32 (h * 5 + hash_addition_constant)

/-- Consume the full 4-byte blocks of the input, returning the state and
the remaining tail (0–3 bytes). -/
def murmurBlocks (h : Nat) : List Nat → Nat × List Nat
  | b0 :: b1 :: b2 :: b3 :: rest =>
      murmurBlocks (murmurStep h (b0 % 256 + 256 * (b1 % 256) +
        65536 * (b2 % 256) + 16777216 * (b3 % 256))) rest
  | l => (h, l)

/- `murmurStep` is sealed against definitional unfolding so that the
equation lemmas of `murmurBlocks` elaborate without reducing through
the 32-bit arithmetic; the kernel still evaluates it on concrete
inputs. -/
attribute [irreducible] murmurStep

/-- Published tail handling: XOR the 1–3 trailing bytes, shifted
little-endian, through the block mix. -/
def murmurTail (h : Nat) : List Nat → Nat
  | [] => h
  | [t0] => process_block_data_to_hash (t0 % 256) h
  | [t0, t1] => process_block_data_to_hash (Nat.xor ((t1 % 256) <<< 8) (t0 % 256)) h
  | t0 :: t1 :: t2 :: _ =>
      process_block_data_to_hash
        (Nat.xor (Nat.xor ((t2 % 256) <<< 16) ((t1 % 256) <<< 8)) (t0 % 256)) h

/-- Published MurmurHash3 (32-bit): blocks, tail, then `h ^= len`
followed by the final avalanche. -/
def murmur3_published (key : List Nat) (seed : Nat) : Nat :=
  let p := murmurBlocks (mask32 seed) key
  fmix32 (Nat.xor (murmurTail p.1 p.2) (mask32 key.length))

/-- The published algorithm with the `h ^= len` step omitted — the
candidate description of what the C code actually computes. -/
def murmur3_published_no_length (key : List Nat) (seed : Nat) : Nat :=
  let p := murmurBlocks (mask32 seed) key
  fmix32 (murmurTail p.1 p.2)

/-! ## Block pools — embedding of `memory_manager.c` (src/unnamed/part_007)

A `memory_pool` is embedded with addresses as natural numbers; `NULL`
is address `0`.  The C stores the free list as an array
`free_block_list` with a `reusable_blocks` counter used as a stack
pointer; here the stack is a Lean list whose head is the top, so
`reusable_blocks = free_block_list.length`. -/

structure memory_pool where
  block_size : Nat
  pool_start_ptr : Nat
  pool_end_ptr : Nat
  next_block_ptr : Nat
  total_blocks : Nat
  available_blocks : Nat
  free_block_list : List Nat
  is_initialized : Bool
deriving DecidableEq, Repr

/-- Embedding of `_is_pointer_from_pool(pool, ptr)`: NULL check, address
range check against the slab, and offset alignment to `block_size`. -/
def _is_pointer_from_pool (pool : memory_pool) (ptr : Nat) : Bool :=
  if ptr = 0 then false
  else if pool.pool_start_ptr ≤ ptr ∧ ptr < pool.pool_end_ptr then
    (ptr - pool.pool_start_ptr) % pool.block_size = 0
  else false

/-- Embedding of `_allocate_memory_from_pool(pool)`.  The `fresh`
argument stands for the address that `malloc` would return on the
exhausted-pool fallback path (assumed non-NULL).  Returns the allocated
address (`none` = `NULL`) and the updated pool. -/
def _allocate_memory_from_pool (pool : memory_pool) (fresh : Nat) :
    Option Nat × memory_pool :=
  if pool.is_initialized then
    match pool.free_block_list with
    | b :: rest => (some b, { pool with free_block_list := rest })
    | [] =>
      if 0 < pool.available_blocks then
        (some pool.next_block_ptr,
          { pool with
              next_block_ptr := pool.next_block_ptr + pool.block_size,
              available_blocks := pool.available_blocks - 1 })
      else (some fresh, pool)
  else (none, pool)

/-- Embedding of `_free_memory_to_pool(pool, ptr)`.  The returned `Bool`
records whether the block fell through to the general allocator's
`free` (true) instead of being pushed on the pool's free list. -/
def _free_memory_to_pool (pool : memory_pool) (ptr : Nat) : memory_pool × Bool :=
  if pool.is_initialized then
    if _is_pointer_from_pool pool ptr then
      if pool.free_block_list.length < pool.total_blocks then
        ({ pool with free_block_list := ptr :: pool.free_block_list }, false)
      else (pool, true)
    else (pool, true)
  else (pool, true)

/-- Embedding of `memory_manager_config` (the five-field version used by
`key_store.c` and the unit tests).  `pre_allocation_factor` is a C
`double`; the values the claims exercise (0, 0.5, 1, 1.5, −0.1) and the
comparisons against 0 and 1 are exact in binary floating point, so the
factor is embedded as a rational number. -/
structure memory_manager_config where
  bucket_size : Nat
  pre_allocation_factor : ℚ
  allocate_list_pool : Bool
  allocate_tree_pool : Bool
  is_concurrency_enabled : Bool

/-- Embedding of `initialize_memory_manager(config)`'s return value with
both slab `malloc` calls assumed to succeed: the function rejects
`bucket_size == 0`, `pre_allocation_factor <= 0` and
`pre_allocation_factor > 1` with `-1` and otherwise returns 0. -/
def initialize_memory_manager (config : memory_manager_config) : Int :=
  if config.bucket_size = 0 ∨ config.pre_allocation_factor ≤ 0 ∨
      1 < config.pre_allocation_factor then -1
  else 0

/-! ## Store data model — embedding of `type_definition.h` and the
current `hash_buckets.c` / `hash_buckets_operation.c` /
`hash_bucket_list.c` (src/unnamed/part_011) / `data_node.c` /
`key_store.c` sources.

A `data_node` owns a copy of the key bytes, the stored hash and a copy
of the value bytes; `data = []` represents the `data == NULL,
data_size == 0` state, and otherwise `data_size = data.length` (the C
keeps the two fields in lock-step).  A `list_node` caches the hash and
references one `data_node`; a chain is the Lean list of its nodes in
`next`-pointer order.  The per-entry mutex and per-bucket rwlock exist
on the C side iff concurrency is enabled; lock init/acquire/release are
modelled as succeeding, which makes the concurrent and single-threaded
dispatch branches of every operation coincide. -/

structure data_node where
  key_hash : Nat
  data : List Nat
  key : List Nat
deriving DecidableEq, Repr

structure list_node where
  key_hash : Nat
  data : data_node
deriving DecidableEq, Repr

inductive bucket_type_t where
  | NONE
  | BUCKET_LIST
  | BUCKET_TREE
deriving DecidableEq, Repr

structure hash_bucket where
  btype : bucket_type_t
  list : List list_node
  count : Nat
  is_initialized : Bool
deriving DecidableEq, Repr

/-- The zeroed bucket produced by `calloc` in `initialise_hash_buckets`:
discriminant 0 = `NONE`, empty container, count 0, not initialized. -/
def calloc_bucket : hash_bucket :=
  { btype := .NONE, list := [], count := 0, is_initialized := false }

/-- Embedding of the global `hash_bucket_memory_pool` of
`hash_buckets.c`. -/
structure hash_bucket_memory_pool where
  hash_buckets_ptr : List hash_bucket
  total_blocks : Nat
  is_initialized : Bool
  is_concurrency_enabled : Bool
deriving DecidableEq, Repr

/-- Embedding of the global state of `key_store.c` plus an
instrumentation ledger: `live_data_nodes` counts the `data_node`
allocations made by `create_data_node` and not yet released by
`delete_data_node`, so that allocation-lifetime claims (P9
leak-freedom) can be stated.  The ledger is written exactly at the
points where the C calls those two functions. -/
structure key_store_state where
  pool : hash_bucket_memory_pool
  g_hash_seed : Nat
  g_bucket_size : Nat
  live_data_nodes : Nat
deriving DecidableEq, Repr

/-- Replace the bucket stored at `index` (a write through the
`hash_buckets_ptr[index]` pointer). -/
def set_bucket (st : key_store_state) (index : Nat) (b : hash_bucket) : key_store_state :=
  { st with pool := { st.pool with
      hash_buckets_ptr := st.pool.hash_buckets_ptr.set index b } }

/-! ## Chain operations — embedding of `hash_bucket_list.c`
(current version, src/unnamed/part_011 lines 74–209) -/

/-- Embedding of `list_node_hash_equals(node, key_hash, key)`: compare
the cached hash first, the key bytes (`strcmp`) only on a hash match. -/
def list_node_hash_equals (node : list_node) (key_hash : Nat) (key : List Nat) : Bool :=
  if node.key_hash = key_hash then node.data.key = key else false

/-- Embedding of `find_list_node(head, key, key_hash)`: first node of
the chain matching hash and key, or `none`. -/
def find_list_node : List list_node → List Nat → Nat → Option list_node
  | [], _, _ => none
  | n :: rest, key, key_hash =>
      if list_node_hash_equals n key_hash key then some n
      else find_list_node rest key key_hash

/-- The scan-and-unlink loop of `delete_list_node` (trailing-pointer
walk): result code, the chain after unlinking, and the removed node's
`data_node`. -/
def delete_scan : List list_node → List Nat → Nat →
    Int × List list_node × Option data_node
  | [], _, _ => (-41, [], none)
  | n :: rest, key, key_hash =>
      if list_node_hash_equals n key_hash key then (0, rest, some n.data)
      else
        let r := delete_scan rest key key_hash
        (r.1, n :: r.2.1, r.2.2)

/-- Embedding of `delete_list_node(&head, key, key_hash, &out)` as
called from `_delete_node` (so `node_header_ptr`, `key` and
`deleted_node_out` are non-NULL): the guard
`!*node_header_ptr … return -21` fires exactly when the chain is empty;
otherwise the scan unlinks the first match (returning its `data_node`
to the caller and the unlinked `list_node` to the LIST pool) or
reports `-41`. -/
def delete_list_node (head : List list_node) (key : List Nat) (key_hash : Nat) :
    Int × List list_node × Option data_node :=
  if head.isEmpty then (-21, head, none)
  else delete_scan head key key_hash

/-! ## Data-node operations — embedding of `data_node.c` -/

/-- Embedding of `_update_data_node(node, new_value)` under the caller
guarantee `new_value` and `new_value->data` non-NULL (checked by
`update_data_node` / `set_key`), with `reallocate_memory` assumed to
succeed: a zero-length value frees the buffer (`data = []`), otherwise
the buffer holds exactly the new bytes.  Always returns 0 under these
assumptions; the embedding returns the updated node. -/
def _update_data_node (node : data_node) (new_value : List Nat) : data_node :=
  if new_value.length = 0 then { node with data := [] }
  else { node with data := new_value }

/-- Embedding of `get_data_from_node(node, value_out)` with the copy
allocation assumed to succeed: a node with `data_size == 0 || data ==
NULL` yields `{NULL, 0}` (modelled as `none`); otherwise a fresh copy
of the value bytes.  Returns 0 in both cases. -/
def get_data_from_node (node : data_node) : Option (List Nat) :=
  if node.data = [] then none else some node.data

/-! ## Bucket operations — embedding of the current `hash_buckets.c`
(src/src/keystore/bucket/hash_buckets.c lines 395–659) and
`hash_buckets_operation.c`.  The statistics counters maintained by
`_operation_counter_increment` / `_operate_data_node_counters` pass the
operation result through unchanged and are not part of any claim, so
they are not modelled.  `_hash_bucket_lock_wrapper` and
`data_node_mutex_lock_wrapper` run the same inner operation with
lock acquisition assumed to succeed, so the concurrent and
single-threaded dispatch arms coincide in the embedding. -/

/-- Embedding of `_is_power_of_two(n)`. -/
def _is_power_of_two (n : Nat) : Bool := decide (0 < n) && decide (n &&& (n - 1) = 0)

/-- The bucket produced by `_initialise_hash_bucket` (with
`pthread_rwlock_init` succeeding): type `BUCKET_LIST`, empty chain,
count 0, initialized. -/
def fresh_bucket : hash_bucket :=
  { btype := .BUCKET_LIST, list := [], count := 0, is_initialized := true }

/-- Embedding of `get_hash_bucket(index)`: `none` when the bucket pool
is uninitialized or the index is out of bounds; otherwise the bucket at
`index`, lazily initialized (and written back) if it was not yet
initialized. -/
def get_hash_bucket (st : key_store_state) (index : Nat) :
    Option (hash_bucket × key_store_state) :=
  if st.pool.is_initialized = false ∨ st.pool.total_blocks ≤ index then none
  else
    let b := st.pool.hash_buckets_ptr.getD index calloc_bucket
    if b.is_initialized then some (b, st)
    else some (fresh_bucket, set_bucket st index fresh_bucket)

/-- Embedding of `_find_data_node(bucket, key, key_hash)`: dispatch on
the container discriminant; only `BUCKET_LIST` is searchable. -/
def _find_data_node (bucket : hash_bucket) (key : List Nat) (key_hash : Nat) :
    Option data_node :=
  match bucket.btype with
  | .BUCKET_LIST => (find_list_node bucket.list key key_hash).map list_node.data
  | _ => none

/-- Embedding of `_find_node(args, &out)`: 0 when the node is found,
`-41` otherwise. -/
def _find_node (bucket : hash_bucket) (key : List Nat) (key_hash : Nat) :
    Int × Option data_node :=
  match _find_data_node bucket key key_hash with
  | some d => (0, some d)
  | none => (-41, none)

/-- Embedding of `_add_node_to_bucket(index, key, key_hash, new_value)`
with allocations succeeding: create the `data_node` (copying key and
value and bumping the allocation ledger), create the chain node from
the LIST pool, and prepend it via `_add_node` / `insert_list_node`,
incrementing the bucket count; an unsupported container type unwinds
both allocations (`-43`). -/
def _add_node_to_bucket (st : key_store_state) (index : Nat) (key : List Nat)
    (key_hash : Nat) (new_value : List Nat) : Int × key_store_state :=
  match get_hash_bucket st index with
  | none => (-40, st)
  | some (b, st1) =>
    -- create_data_node argument validation (key non-NULL by caller):
    if key.isEmpty ∨ new_value.isEmpty then (-20, st1)
    else
      let nd : data_node := { key_hash := key_hash, data := new_value, key := key }
      let st2 := { st1 with live_data_nodes := st1.live_data_nodes + 1 }
      match b.btype with
      | .BUCKET_LIST =>
          (0, set_bucket st2 index
                { b with list := { key_hash := key_hash, data := nd } :: b.list,
                         count := b.count + 1 })
      | _ =>
          -- failure unwinds: delete_data_node(new_data_node)
          (-43, { st2 with live_data_nodes := st2.live_data_nodes - 1 })

/-- Replace the `data_node` of the first chain node matching
`(key_hash, key)` by its updated value — the effect of the C's
in-place `update_data_node` through the pointer `_find_node`
returned. -/
def update_first_match : List list_node → List Nat → Nat → List Nat → List list_node
  | [], _, _, _ => []
  | n :: rest, key, key_hash, v =>
      if list_node_hash_equals n key_hash key then
        { n with data := _update_data_node n.data v } :: rest
      else n :: update_first_match rest key key_hash v

/-- Embedding of `upsert_node_to_bucket(index, key, key_hash,
new_value)` (for non-NULL `key` / `new_value`): find the node and
update it in place, or add a fresh node when the find reports `-41`. -/
def upsert_node_to_bucket (st : key_store_state) (index : Nat) (key : List Nat)
    (key_hash : Nat) (new_value : List Nat) : Int × key_store_state :=
  match get_hash_bucket st index with
  | none => (-40, st)
  | some (b, st1) =>
    let fr := _find_node b key key_hash
    if fr.1 = 0 then
      -- node exists: update_data_node through the returned pointer
      -- (new_value and new_value->data are non-NULL here, so it
      -- reaches _update_data_node and returns 0)
      (0, set_bucket st1 index
            { b with list := update_first_match b.list key key_hash new_value })
    else if fr.1 = -41 then _add_node_to_bucket st1 index key key_hash new_value
    else (fr.1, st1)

/-- Embedding of `find_node_in_bucket(index, key, key_hash, value_out)`
(for non-NULL `key` / `value_out`): the result code, the state (updated
only by lazy bucket initialization), and the copied-out value. -/
def find_node_in_bucket (st : key_store_state) (index : Nat) (key : List Nat)
    (key_hash : Nat) : Int × key_store_state × Option (List Nat) :=
  match get_hash_bucket st index with
  | none => (-40, st, none)
  | some (b, st1) =>
    let fr := _find_node b key key_hash
    if fr.1 ≠ 0 then (fr.1, st1, none)
    else
      match fr.2 with
      | some d => (0, st1, get_data_from_node d)
      | none => (0, st1, none)

/-- Embedding of `delete_node_from_bucket(index, key, key_hash)` (for
non-NULL `key`) via `_delete_node`: unlink the chain node, return it to
the LIST pool, and decrement the count on success.  Note that the
removed `data_node` handed back through `deleted_node_out` is dropped:
no call to `delete_data_node` occurs on this path, so the allocation
ledger is not decremented. -/
def delete_node_from_bucket (st : key_store_state) (index : Nat) (key : List Nat)
    (key_hash : Nat) : Int × key_store_state :=
  match get_hash_bucket st index with
  | none => (-40, st)
  | some (b, st1) =>
    match b.btype with
    | .BUCKET_LIST =>
        let r := delete_list_node b.list key key_hash
        if r.1 = 0 then
          (0, set_bucket st1 index { b with list := r.2.1, count := b.count - 1 })
        else (r.1, st1)
    | _ => (-43, st1)

/-! ## Store façade — embedding of `initialise_hash_buckets`,
`cleanup_hash_buckets` and `key_store.c` -/

/-- Embedding of `initialise_hash_buckets(bucket_size,
is_concurrency_enabled)` starting from a given pool state (the global
`g_hash_bucket_pool`), with `calloc` and `pthread_rwlock_init` assumed
to succeed: reject non-powers-of-two with `-21`; keep an
already-initialized pool; otherwise allocate `bucket_size` zeroed
buckets and, when concurrency is enabled, eagerly initialize each of
them. -/
def initialise_hash_buckets (pool : hash_bucket_memory_pool) (bucket_size : Nat)
    (is_concurrency_enabled : Bool) : Int × hash_bucket_memory_pool :=
  if _is_power_of_two bucket_size = false then (-21, pool)
  else if pool.is_initialized then (0, pool)
  else
    let buckets :=
      if is_concurrency_enabled then List.replicate bucket_size fresh_bucket
      else List.replicate bucket_size calloc_bucket
    (0, { hash_buckets_ptr := buckets, total_blocks := bucket_size,
          is_initialized := true, is_concurrency_enabled := is_concurrency_enabled })

/-- Sum of the chain lengths of all buckets: the number of
`delete_data_node` calls `cleanup_hash_buckets` performs through
`_delete_hash_bucket` / `delete_all_list_nodes`. -/
def reachable_data_nodes (pool : hash_bucket_memory_pool) : Nat :=
  (pool.hash_buckets_ptr.map (fun b => b.list.length)).sum

/-- Embedding of `cleanup_hash_buckets()`: for an initialized pool,
destroy every chain node and its `data_node` (decrementing the ledger
once per node still reachable from a bucket), free the bucket array and
zero the pool.  `_delete_hash_bucket` lazily initializes buckets it
visits before emptying them, which destroys no further nodes. -/
def cleanup_hash_buckets (st : key_store_state) : key_store_state :=
  if st.pool.is_initialized then
    { st with
        pool := { hash_buckets_ptr := [], total_blocks := 0,
                  is_initialized := false, is_concurrency_enabled := false },
        live_data_nodes := st.live_data_nodes - reachable_data_nodes st.pool }
  else st

/-- Embedding of `initialise_key_store(bucket_size,
pre_memory_allocation_factor, is_concurrency_enabled)` run from the
fresh (zeroed) global state; `seed` is the value `_generate_hash_seed`
samples from the wall clock.  Returns the result code and, on success,
the resulting store state. -/
def initialise_key_store (bucket_size : Nat) (factor : ℚ)
    (is_concurrency_enabled : Bool) (seed : Nat) : Int × Option key_store_state :=
  if bucket_size = 0 ∨ factor < 0 ∨ 1 < factor then (-21, none)
  else
    let fresh_pool : hash_bucket_memory_pool :=
      { hash_buckets_ptr := [], total_blocks := 0,
        is_initialized := false, is_concurrency_enabled := false }
    let hb := initialise_hash_buckets fresh_pool bucket_size is_concurrency_enabled
    if hb.1 ≠ 0 then (hb.1, none)
    else
      let mm := initialize_memory_manager
        { bucket_size := bucket_size, pre_allocation_factor := factor,
          allocate_list_pool := true, allocate_tree_pool := false,
          is_concurrency_enabled := is_concurrency_enabled }
      if mm ≠ 0 then (mm, none)  -- cleanup_hash_buckets(); return the error
      else
        (0, some { pool := hb.2, g_hash_seed := mask32 seed,
                   g_bucket_size := bucket_size, live_data_nodes := 0 })

/-- Embedding of `cleanup_key_store()` (the memory-manager teardown
frees only pool slabs, never live `data_node`s, so the ledger is
touched only by `cleanup_hash_buckets`). -/
def cleanup_key_store (st : key_store_state) : key_store_state :=
  let st' := cleanup_hash_buckets st
  { st' with g_hash_seed := 0 }

/-- Embedding of `_get_bucket_index(key_hash)`: the unsigned mask
`key_hash & (g_bucket_size - 1)` (with `g_bucket_size - 1` computed in
32-bit unsigned arithmetic, so it wraps to `0xFFFFFFFF` when the size
is 0) followed by the `index >= g_bucket_size → -1` bound check. -/
def _get_bucket_index (bucket_size key_hash : Nat) : Option Nat :=
  let index := key_hash &&& ((bucket_size + U32 - 1) % U32)
  if bucket_size ≤ index then none else some index

/-- Embedding of `_get_hash_and_index(key, &hash, &index)` for non-NULL
output pointers: `-70` when the hash equals `UINT32_MAX`, `-71` when
the index is out of range, otherwise the pair. -/
def _get_hash_and_index (st : key_store_state) (key : List Nat) :
    Int × Option (Nat × Nat) :=
  let key_hash := hash_function_murmur_32 key st.g_hash_seed
  if key_hash = U32 - 1 then (-70, none)
  else
    match _get_bucket_index st.g_bucket_size key_hash with
    | none => (-71, none)
    | some index => (0, some (key_hash, index))

/-- Embedding of `set_key(key, value)`: `key = []` models both a NULL
and an empty key; `value.isEmpty` models both `value->data == NULL` and
`value->data_size == 0` (and `value == NULL`). -/
def set_key (st : key_store_state) (key : List Nat) (value : List Nat) :
    Int × key_store_state :=
  if value.isEmpty ∨ key.isEmpty then (-20, st)
  else
    match _get_hash_and_index st key with
    | (r, none) => (r, st)
    | (_, some (key_hash, index)) => upsert_node_to_bucket st index key key_hash value

/-- Embedding of `get_key(key, &value_out)` for a non-NULL `value_out`:
result code, updated state and the freshly copied value (`none` models
an untouched / NULL output). -/
def get_key (st : key_store_state) (key : List Nat) :
    Int × key_store_state × Option (List Nat) :=
  if key.isEmpty then (-20, st, none)
  else
    match _get_hash_and_index st key with
    | (r, none) => (r, st, none)
    | (_, some (key_hash, index)) => find_node_in_bucket st index key key_hash

/-- Embedding of `delete_key(key)`. -/
def delete_key (st : key_store_state) (key : List Nat) : Int × key_store_state :=
  if key.isEmpty then (-20, st)
  else
    match _get_hash_and_index st key with
    | (r, none) => (r, st)
    | (_, some (key_hash, index)) => delete_node_from_bucket st index key key_hash

/-! ## Operation sequences (for the invariant claims) -/

/-- A public point operation of the store façade. -/
inductive key_store_op where
  | set (key value : List Nat)
  | get (key : List Nat)
  | del (key : List Nat)
deriving DecidableEq, Repr

/-- Apply one public operation to the store state (discarding the
result code and any copied-out value). -/
def apply_op (st : key_store_state) : key_store_op → key_store_state
  | .set key value => (set_key st key value).2
  | .get key => (get_key st key).2.1
  | .del key => (delete_key st key).2

/-- Apply a sequence of public operations, first to last. -/
def apply_ops (st : key_store_state) (ops : List key_store_op) : key_store_state :=
  ops.foldl apply_op st

/-- The implicit bucket-count invariant of claim C9, as a decidable
check: every initialized bucket's `count` field equals the number of
chain nodes reachable from its chain head. -/
def count_invariant (st : key_store_state) : Bool :=
  st.pool.hash_buckets_ptr.all fun b => !b.is_initialized || b.count = b.list.length

/-- Structural well-formedness established by `initialise_key_store`:
the bucket array has exactly `total_blocks` slots. -/
def buckets_wf (st : key_store_state) : Prop :=
  st.pool.hash_buckets_ptr.length = st.pool.total_blocks

instance (st : key_store_state) : Decidable (buckets_wf st) := by
  unfold buckets_wf; infer_instance

/-! ## Concrete example states used by witnesses and counterexamples -/

/-- The zeroed global state before any initialization. -/
def empty_key_store_state : key_store_state :=
  { pool := { hash_buckets_ptr := [], total_blocks := 0,
              is_initialized := false, is_concurrency_enabled := false },
    g_hash_seed := 0, g_bucket_size := 0, live_data_nodes := 0 }

/-- The store state after a successful
`initialise_key_store(8, 0.5, false)` with hash seed 0 (single-threaded,
lazy bucket initialization). -/
def example_store_8 : key_store_state :=
  ((initialise_key_store 8 (mkRat 1 2) false 0).2).getD empty_key_store_state

/-- A pool left uninitialized (as after a failed slab allocation during
init): all fields zero, `is_initialized = false`. -/
def uninit_memory_pool : memory_pool :=
  { block_size := 0, pool_start_ptr := 0, pool_end_ptr := 0, next_block_ptr := 0,
    total_blocks := 0, available_blocks := 0, free_block_list := [],
    is_initialized := false }

/-- An initialized, non-exhausted pool: 4 blocks of 16 bytes at
addresses 1000–1063, two already handed out by the bump pointer. -/
def example_memory_pool : memory_pool :=
  { block_size := 16, pool_start_ptr := 1000, pool_end_ptr := 1064,
    next_block_ptr := 1032, total_blocks := 4, available_blocks := 2,
    free_block_list := [], is_initialized := true }

/-! # Theorems -/

/-! ## Claim C7 — alloc on an uninitialized pool -/

/-- Claim C7, counterexample: on a pool left uninitialized by a failed
init, `_allocate_memory_from_pool` returns `NULL` even though the
general allocator would have succeeded (here it would have returned the
block at address 777); it does not fall back to the general
allocator as the claim states. -/
theorem c7_uninit_pool_alloc_counterexample :
    (_allocate_memory_from_pool uninit_memory_pool 777).1 = none ∧
    (_allocate_memory_from_pool uninit_memory_pool 777).1 ≠ some 777 := by
  decide

/-- Claim C7, amended: every alloc on an uninitialized pool returns a
null pointer and leaves the pool unchanged — it never crashes, but it
also never requests a block from the general allocator. -/
theorem c7_uninit_pool_alloc_returns_null (pool : memory_pool) (fresh : Nat)
    (h : pool.is_initialized = false) :
    _allocate_memory_from_pool pool fresh = (none, pool) := by
  simp [_allocate_memory_from_pool, h]

/-- Witness for `c7_uninit_pool_alloc_returns_null` at the concrete
uninitialized pool. -/
theorem c7_uninit_pool_alloc_returns_null_witness :
    uninit_memory_pool.is_initialized = false ∧
    _allocate_memory_from_pool uninit_memory_pool 777 = (none, uninit_memory_pool) :=
  ⟨rfl, c7_uninit_pool_alloc_returns_null uninit_memory_pool 777 rfl⟩

/-! ## Claim C8 — pool free-list LIFO reuse -/

/-- Claim C8: freeing an in-slab, aligned block of an initialized,
non-exhausted pool (with room on the free list) pushes it on the free
list, and the next alloc pops and returns exactly that block before the
bump pointer or the available-block count advance; a block outside the
slab or misaligned is never placed on the free list. -/
theorem c8_pool_free_alloc_lifo (p : memory_pool) (b fresh : Nat)
    (hinit : p.is_initialized = true)
    (havail : 0 < p.available_blocks)
    (hb0 : b ≠ 0)
    (hlo : p.pool_start_ptr ≤ b) (hhi : b < p.pool_end_ptr)
    (halign : (b - p.pool_start_ptr) % p.block_size = 0)
    (hroom : p.free_block_list.length < p.total_blocks) :
    (_free_memory_to_pool p b).2 = false ∧
    ((_free_memory_to_pool p b).1).free_block_list = b :: p.free_block_list ∧
    (_allocate_memory_from_pool (_free_memory_to_pool p b).1 fresh).1 = some b ∧
    ((_allocate_memory_from_pool (_free_memory_to_pool p b).1 fresh).2).next_block_ptr
      = p.next_block_ptr ∧
    ((_allocate_memory_from_pool (_free_memory_to_pool p b).1 fresh).2).available_blocks
      = p.available_blocks ∧
    ((_allocate_memory_from_pool (_free_memory_to_pool p b).1 fresh).2).free_block_list
      = p.free_block_list ∧
    ∀ c, (c < p.pool_start_ptr ∨ p.pool_end_ptr ≤ c ∨
          (c - p.pool_start_ptr) % p.block_size ≠ 0) →
      ((_free_memory_to_pool p c).1).free_block_list = p.free_block_list := by
  have hptr : _is_pointer_from_pool p b = true := by
    simp only [_is_pointer_from_pool, hb0, if_false]
    rw [if_pos ⟨hlo, hhi⟩]
    exact decide_eq_true halign
  have hfree : _free_memory_to_pool p b =
      ({ p with free_block_list := b :: p.free_block_list }, false) := by
    simp [_free_memory_to_pool, hinit, hptr, hroom]
  refine ⟨by rw [hfree], by rw [hfree], ?_, ?_, ?_, ?_, ?_⟩
  · rw [hfree]; simp [_allocate_memory_from_pool, hinit]
  · rw [hfree]; simp [_allocate_memory_from_pool, hinit]
  · rw [hfree]; simp [_allocate_memory_from_pool, hinit]
  · rw [hfree]; simp [_allocate_memory_from_pool, hinit]
  · intro c hc
    by_cases hc0 : c = 0
    · simp [_free_memory_to_pool, _is_pointer_from_pool, hc0]
    · have hcp : _is_pointer_from_pool p c = false := by
        simp only [_is_pointer_from_pool, hc0, if_false]
        rcases hc with h1 | h2 | h3
        · rw [if_neg (by omega)]
        · rw [if_neg (by omega)]
        · by_cases hr : p.pool_start_ptr ≤ c ∧ c < p.pool_end_ptr
          · rw [if_pos hr]; simpa using h3
          · rw [if_neg hr]
      simp [_free_memory_to_pool, hcp]

/-- Witness for `c8_pool_free_alloc_lifo` on the concrete example pool,
freeing the in-slab aligned block at address 1016. -/
theorem c8_pool_free_alloc_lifo_witness :
    (example_memory_pool.is_initialized = true ∧
     0 < example_memory_pool.available_blocks ∧
     example_memory_pool.pool_start_ptr ≤ 1016 ∧
     1016 < example_memory_pool.pool_end_ptr ∧
     (1016 - example_memory_pool.pool_start_ptr) % example_memory_pool.block_size = 0 ∧
     example_memory_pool.free_block_list.length < example_memory_pool.total_blocks) ∧
    ((_free_memory_to_pool example_memory_pool 1016).2 = false ∧
     (_allocate_memory_from_pool (_free_memory_to_pool example_memory_pool 1016).1 5000).1
       = some 1016) := by
  have h := c8_pool_free_alloc_lifo example_memory_pool 1016 5000 rfl (by decide)
    (by decide) (by decide) (by decide) (by decide) (by decide)
  exact ⟨⟨rfl, by decide, by decide, by decide, by decide, by decide⟩,
    ⟨h.1, h.2.2.1⟩⟩

/-! ## Claim C6 — pre-allocation factor 0.0 -/

/-- Claim C6, counterexample: `initialise_key_store(8, 0.0, false)` does
not return success — `initialize_memory_manager` rejects a
pre-allocation factor of 0 with `-1`, so init fails. -/
theorem c6_init_zero_factor_counterexample :
    (initialise_key_store 8 0 false 0).1 = -1 ∧
    (initialise_key_store 8 0 false 0).1 ≠ 0 := by
  decide

/-- Claim C6, amended: for every power-of-two bucket count,
`init(B, 0.0, c)` fails with `-1`: the key-store argument check accepts
factor 0, but `initialize_memory_manager` rejects
`pre_allocation_factor <= 0`, so a factor of 0.0 is not a valid way to
disable pre-allocation. -/
theorem c6_init_zero_factor_fails (B : Nat) (c : Bool) (seed : Nat)
    (hpow : _is_power_of_two B = true) :
    (initialise_key_store B 0 c seed).1 = -1 := by
  have hB : ¬ B = 0 := by
    intro h; rw [h] at hpow; simp [_is_power_of_two] at hpow
  have h10 : ¬ ((1 : ℚ) < 0) := by norm_num
  simp [initialise_key_store, hB, initialise_hash_buckets, hpow,
    initialize_memory_manager, h10]

/-- Witness for `c6_init_zero_factor_fails` at bucket count 8. -/
theorem c6_init_zero_factor_fails_witness :
    _is_power_of_two 8 = true ∧ (initialise_key_store 8 0 false 0).1 = -1 :=
  ⟨by decide, c6_init_zero_factor_fails 8 false 0 (by decide)⟩

/-! ## Claim C5 — init argument validation error codes -/

/-- Claim C5, counterexample: `init(0, 0.5, false)`,
`init(8, 1.5, false)` and `init(8, −0.1, false)` all return `-21` — the
same code `initialise_hash_buckets` uses for a non-power-of-two bucket
count (the `InvalidConfig` kind) — and not the distinct
`InvalidArgument` code `-20` the claim requires. -/
theorem c5_init_invalid_args_counterexample :
    (initialise_key_store 0 (mkRat 1 2) false 0).1 = -21 ∧
    (initialise_key_store 8 (mkRat 3 2) false 0).1 = -21 ∧
    (initialise_key_store 8 (mkRat (-1) 10) false 0).1 = -21 ∧
    (initialise_key_store 0 (mkRat 1 2) false 0).1 ≠ -20 := by
  decide

/-- Claim C5, amended: `init(0, f, c)` and `init(B, f, c)` with `f`
outside `[0, 1]` fail with `-21`, which is the same code returned for a
bucket count that is not a power of two: the implementation does not
distinguish an `InvalidArgument` kind from the `InvalidConfig` kind for
init validation. -/
theorem c5_init_validation_uses_invalid_config (B : Nat) (f : ℚ) (c : Bool) (seed : Nat) :
    ((B = 0 ∨ f < 0 ∨ 1 < f) → (initialise_key_store B f c seed).1 = -21) ∧
    (_is_power_of_two B = false → 0 ≤ f → f ≤ 1 →
      (initialise_key_store B f c seed).1 = -21) := by
  constructor
  · intro h
    simp [initialise_key_store, h]
  · intro hpow h0 h1
    by_cases hg : B = 0 ∨ f < 0 ∨ 1 < f
    · simp [initialise_key_store, hg]
    · simp [initialise_key_store, hg, initialise_hash_buckets, hpow]

/-- Witness for `c5_init_validation_uses_invalid_config`: the first
part at `init(0, 0.5, false)`, the second at `init(3, 0.5, false)`. -/
theorem c5_init_validation_uses_invalid_config_witness :
    ((0 = 0 ∨ (mkRat 1 2) < 0 ∨ 1 < (mkRat 1 2)) ∧
      (initialise_key_store 0 (mkRat 1 2) false 0).1 = -21) ∧
    (_is_power_of_two 3 = false ∧ (0 : ℚ) ≤ mkRat 1 2 ∧ (mkRat 1 2) ≤ 1 ∧
      (initialise_key_store 3 (mkRat 1 2) false 0).1 = -21) :=
  ⟨⟨Or.inl rfl, (c5_init_validation_uses_invalid_config 0 (mkRat 1 2) false 0).1 (Or.inl rfl)⟩,
   ⟨by decide, by decide, by decide,
    (c5_init_validation_uses_invalid_config 3 (mkRat 1 2) false 0).2 (by decide)
      (by decide) (by decide)⟩⟩

/-! ## Claim C2 — delete must destroy the removed Entry -/

/-- Claim C2, failing run: after `init(8, 0.5, false)`,
`set("a", [1,2])` and a successful `delete("a")`, the removed entry's
`data_node` has not been released (the delete path drops the
`deleted_node_out` pointer without calling `delete_data_node`), and
even `cleanup` cannot release it because the node is no longer
reachable from any bucket chain: one data-node allocation attributable
to the store remains live. -/
theorem c2_delete_leaks_removed_entry :
    (initialise_key_store 8 (mkRat 1 2) false 0).1 = 0 ∧
    (set_key example_store_8 [97] [1, 2]).1 = 0 ∧
    (delete_key (set_key example_store_8 [97] [1, 2]).2 [97]).1 = 0 ∧
    (cleanup_key_store
        (delete_key (set_key example_store_8 [97] [1, 2]).2 [97]).2).live_data_nodes
      = 1 := by
  decide

/-! ## Claim C4 — delete on a never-initialized bucket (counterexample) -/

/-- Claim C4, counterexample: on the freshly initialized single-threaded
store, `delete("a")` targets a bucket that has never been initialized;
it returns `-21` (the code that elsewhere means invalid configuration),
not the `NotFound` code `-41` the claim requires — though indeed not
`BucketUninitialized` (`-40`) either. -/
theorem c4_delete_uninit_bucket_counterexample :
    (delete_key example_store_8 [97]).1 = -21 ∧
    (delete_key example_store_8 [97]).1 ≠ -41 ∧
    (delete_key example_store_8 [97]).1 ≠ -40 := by
  decide

/-! ## Claim C3 — MurmurHash3 conformance (counterexample) -/

/-- Claim C3, counterexample: for the one-byte key "a" (byte 97) and
seed 0, the published MurmurHash3 (32-bit) value is 1009084850
(0x3C2569B2), but `hash_function_murmur_32` computes 1485495528 —
the two differ because the C `finalization` never XORs the input
length into the state. -/
theorem c3_murmur_differs_from_published :
    hash_function_murmur_32 [97] 0 ≠ murmur3_published [97] 0 ∧
    murmur3_published [97] 0 = 1009084850 ∧
    hash_function_murmur_32 [97] 0 = 1485495528 := by
  decide

/-! ## Claim C3 — amended: the C hash is published MurmurHash3 minus the
length mix.  The lemmas align the C loop embedding (index-based, over
`block_count` words) with the structural reference recursion. -/

theorem murmurStep_eq_step (h w : Nat) : murmurStep h w = process_blocks_step h w := by
  with_unfolding_all rfl

theorem getD_drop_add (l : List Nat) (n k : Nat) :
    (l.drop n).getD k 0 = l.getD (n + k) 0 := by
  simp [List.getD_eq_getElem?_getD, List.getElem?_drop]

theorem nat_zero_xor (n : Nat) : Nat.xor 0 n = n := Nat.zero_xor n

theorem getD_cons_four (a b c d : Nat) (l : List Nat) (n : Nat) :
    (a :: b :: c :: d :: l).getD (n + 4) 0 = l.getD n 0 := by
  show (a :: b :: c :: d :: l).getD (n + 1 + 1 + 1 + 1) 0 = l.getD n 0
  simp [List.getD_cons_succ]

theorem drop_cons_four (a b c d : Nat) (l : List Nat) (n : Nat) :
    (a :: b :: c :: d :: l).drop (n + 4) = l.drop n := by
  show (a :: b :: c :: d :: l).drop (n + 1 + 1 + 1 + 1) = l.drop n
  simp [List.drop_succ_cons]

theorem byteAt_cons_four (a b c d : Nat) (l : List Nat) (n : Nat) :
    byteAt (a :: b :: c :: d :: l) (n + 4) = byteAt l n := by
  simp [byteAt, getD_cons_four]

theorem word_at_cons_four (a b c d : Nat) (l : List Nat) (j : Nat) :
    word_at (a :: b :: c :: d :: l) (j + 1) = word_at l j := by
  have h0 : 4 * (j + 1) = 4 * j + 4 := by ring
  have h1 : 4 * (j + 1) + 1 = 4 * j + 1 + 4 := by ring
  have h2 : 4 * (j + 1) + 2 = 4 * j + 2 + 4 := by ring
  have h3 : 4 * (j + 1) + 3 = 4 * j + 3 + 4 := by ring
  rw [word_at, h3, h2, h1, h0, byteAt_cons_four, byteAt_cons_four,
    byteAt_cons_four, byteAt_cons_four, word_at]

theorem process_blocks_cons_four (n h : Nat) (b0 b1 b2 b3 : Nat) (rest : List Nat) :
    process_blocks (n + 1) h (b0 :: b1 :: b2 :: b3 :: rest) =
      process_blocks n
        (process_blocks_step h (word_at (b0 :: b1 :: b2 :: b3 :: rest) 0)) rest := by
  unfold process_blocks
  rw [List.range_succ_eq_map]
  rw [List.foldl_cons, List.foldl_map]
  congr 1

theorem word_at_zero (b0 b1 b2 b3 : Nat) (rest : List Nat) :
    word_at (b0 :: b1 :: b2 :: b3 :: rest) 0 =
      b0 % 256 + 256 * (b1 % 256) + 65536 * (b2 % 256) + 16777216 * (b3 % 256) := by
  rfl

theorem murmurBlocks_eq_process_blocks (h : Nat) (key : List Nat) :
    murmurBlocks h key =
      (process_blocks (key.length / 4) h key, key.drop (4 * (key.length / 4))) := by
  induction h, key using murmurBlocks.induct with
  | case1 h b0 b1 b2 b3 rest ih =>
      have hlen : (b0 :: b1 :: b2 :: b3 :: rest).length = rest.length + 4 := by
        simp
      have hdiv : (rest.length + 4) / 4 = rest.length / 4 + 1 := by omega
      rw [murmurBlocks, ih, hlen, hdiv, process_blocks_cons_four]
      have hdrop : 4 * (rest.length / 4 + 1) = 4 * (rest.length / 4) + 4 := by ring
      rw [hdrop, drop_cons_four, word_at_zero, murmurStep_eq_step]
  | case2 h l hshort =>
      have hlen : l.length < 4 := by
        rcases l with _ | ⟨a, _ | ⟨b, _ | ⟨c, _ | ⟨d, rest⟩⟩⟩⟩
        · simp
        · simp
        · simp
        · simp
        · exact ((hshort a b c d rest rfl).elim)
      have hdiv : l.length / 4 = 0 := by omega
      have hmb : murmurBlocks h l = (h, l) := by
        rcases l with _ | ⟨a, _ | ⟨b, _ | ⟨c, _ | ⟨d, rest⟩⟩⟩⟩
        · rw [murmurBlocks]
          simp
        · rw [murmurBlocks]
          simp
        · rw [murmurBlocks]
          simp
        · rw [murmurBlocks]
          simp
        · exact ((hshort a b c d rest rfl).elim)
      rw [hmb, hdiv]
      simp [process_blocks]

theorem process_tailing_eq_murmurTail (h : Nat) (key : List Nat) :
    process_tailing_bytes (key.length / 4) h key key.length =
      murmurTail h (key.drop (4 * (key.length / 4))) := by
  set n := key.length / 4 with hn
  set t := key.drop (4 * n) with ht
  have htlen : t.length = key.length % 4 := by
    rw [ht]; simp [List.length_drop]; omega
  have hbyte : ∀ k, byteAt key (4 * n + k) = t.getD k 0 % 256 := by
    intro k
    rw [byteAt, ht, getD_drop_add]
  have hmod : key.length % 4 = 0 ∨ key.length % 4 = 1 ∨
      key.length % 4 = 2 ∨ key.length % 4 = 3 := by omega
  rcases hmod with hm | hm | hm | hm
  · have ht0 : t = [] := List.length_eq_zero.mp (by omega)
    rw [process_tailing_bytes, ht0]
    simp [hm, murmurTail]
  · obtain ⟨t0, ht0⟩ := List.length_eq_one.mp (htlen.trans hm)
    rw [process_tailing_bytes, ht0]
    simp only [hm]
    norm_num [murmurTail]
    have := hbyte 0
    rw [ht0] at this
    simp at this
    rw [nat_zero_xor, this]
  · obtain ⟨t0, t1, ht0⟩ := List.length_eq_two.mp (htlen.trans hm)
    rw [process_tailing_bytes, ht0]
    simp only [hm]
    norm_num [murmurTail]
    have h0 := hbyte 0
    have h1 := hbyte 1
    rw [ht0] at h0 h1
    simp at h0 h1
    rw [nat_zero_xor, h0, h1]
  · obtain ⟨t0, t1, t2, ht0⟩ := List.length_eq_three.mp (htlen.trans hm)
    rw [process_tailing_bytes, ht0]
    simp only [hm]
    norm_num [murmurTail]
    have h0 := hbyte 0
    have h1 := hbyte 1
    have h2 := hbyte 2
    rw [ht0] at h0 h1 h2
    simp at h0 h1 h2
    rw [nat_zero_xor, h0, h1, h2]

theorem finalization_eq_fmix32 (h len : Nat) : finalization h len = fmix32 h := rfl

/-- Claim C3, amended: for every key and seed,
`hash_function_murmur_32` computes exactly the published MurmurHash3
(32-bit) value with the single deviation that the key length is never
XOR-ed into the state before the final avalanche (the `len` parameter
of `finalization` is unused). -/
theorem c3_murmur_equals_published_without_length (key : List Nat) (seed : Nat) :
    hash_function_murmur_32 key seed = murmur3_published_no_length key seed := by
  unfold hash_function_murmur_32 murmur3_published_no_length
  rw [murmurBlocks_eq_process_blocks]
  rw [finalization_eq_fmix32, process_tailing_eq_murmurTail]

/-! ## Store-level helper lemmas (for claims C1, C4, C9, C10) -/

theorem getD_set_self (l : List hash_bucket) (i : Nat) (b : hash_bucket)
    (h : i < l.length) : (l.set i b).getD i calloc_bucket = b := by
  simp [List.getD_eq_getElem?_getD, List.getElem?_set_self h]

theorem set_bucket_fields (st : key_store_state) (i : Nat) (b : hash_bucket) :
    (set_bucket st i b).g_hash_seed = st.g_hash_seed ∧
    (set_bucket st i b).g_bucket_size = st.g_bucket_size ∧
    (set_bucket st i b).pool.is_initialized = st.pool.is_initialized ∧
    (set_bucket st i b).pool.total_blocks = st.pool.total_blocks ∧
    (set_bucket st i b).live_data_nodes = st.live_data_nodes ∧
    (set_bucket st i b).pool.hash_buckets_ptr = st.pool.hash_buckets_ptr.set i b :=
  ⟨rfl, rfl, rfl, rfl, rfl, rfl⟩

theorem buckets_wf_set_bucket (st : key_store_state) (i : Nat) (b : hash_bucket)
    (h : buckets_wf st) : buckets_wf (set_bucket st i b) := by
  unfold buckets_wf at h ⊢
  simpa [set_bucket] using h

/-- Characterization of a successful `get_hash_bucket`: the pool is
initialized, the index is in range, the returned bucket is initialized
and stored at the index of the (possibly lazily updated) state, and all
other state components are untouched. -/
theorem get_hash_bucket_spec {st : key_store_state} {i : Nat} {b : hash_bucket}
    {st1 : key_store_state} (hwf : buckets_wf st)
    (h : get_hash_bucket st i = some (b, st1)) :
    st.pool.is_initialized = true ∧
    i < st.pool.total_blocks ∧
    b.is_initialized = true ∧
    st1.g_hash_seed = st.g_hash_seed ∧
    st1.g_bucket_size = st.g_bucket_size ∧
    st1.pool.is_initialized = true ∧
    st1.pool.total_blocks = st.pool.total_blocks ∧
    st1.live_data_nodes = st.live_data_nodes ∧
    buckets_wf st1 ∧
    st1.pool.hash_buckets_ptr.getD i calloc_bucket = b := by
  unfold get_hash_bucket at h
  by_cases hc : st.pool.is_initialized = false ∨ st.pool.total_blocks ≤ i
  · rw [if_pos hc] at h; cases h
  · rw [if_neg hc] at h
    obtain ⟨h1, h2⟩ := not_or.mp hc
    have hinit : st.pool.is_initialized = true := by
      cases hb : st.pool.is_initialized
      · exact absurd hb h1
      · rfl
    have hi : i < st.pool.total_blocks := Nat.lt_of_not_le h2
    have hil : i < st.pool.hash_buckets_ptr.length := by
      rw [hwf]; exact hi
    by_cases hbi : (st.pool.hash_buckets_ptr.getD i calloc_bucket).is_initialized = true
    · rw [if_pos hbi] at h
      obtain ⟨hb, hst⟩ := Prod.mk.injEq .. ▸ Option.some.injEq .. ▸ h
      subst hst
      exact ⟨hinit, hi, hb ▸ hbi, rfl, rfl, hinit, rfl, rfl, hwf, hb⟩
    · rw [if_neg (by simpa using hbi)] at h
      obtain ⟨hb, hst⟩ := Prod.mk.injEq .. ▸ Option.some.injEq .. ▸ h
      subst hst
      refine ⟨hinit, hi, hb ▸ rfl, rfl, rfl, hinit, rfl, rfl,
        buckets_wf_set_bucket st i fresh_bucket hwf, ?_⟩
      rw [← hb]
      exact getD_set_self _ _ _ hil

/-- A bucket that is already initialized and in range is returned
unchanged by `get_hash_bucket`. -/
theorem get_hash_bucket_of_initialized {st : key_store_state} {i : Nat}
    (hinit : st.pool.is_initialized = true) (hi : i < st.pool.total_blocks)
    (hb : (st.pool.hash_buckets_ptr.getD i calloc_bucket).is_initialized = true) :
    get_hash_bucket st i = some (st.pool.hash_buckets_ptr.getD i calloc_bucket, st) := by
  unfold get_hash_bucket
  rw [if_neg (by simp [hinit]; omega), if_pos hb]

/-- Fetching the same bucket again after a successful fetch returns the
same bucket and state. -/
theorem get_hash_bucket_idem {st : key_store_state} {i : Nat} {b : hash_bucket}
    {st1 : key_store_state} (hwf : buckets_wf st)
    (h : get_hash_bucket st i = some (b, st1)) :
    get_hash_bucket st1 i = some (b, st1) := by
  obtain ⟨_, _, hbi, _, _, hp1, ht1, _, _, hbd⟩ := get_hash_bucket_spec hwf h
  have := get_hash_bucket_of_initialized hp1 (by rw [ht1]; exact (get_hash_bucket_spec hwf h).2.1)
    (by rw [hbd]; exact hbi)
  rw [this, hbd]

theorem _find_data_node_some {b : hash_bucket} {key : List Nat} {kh : Nat}
    {d : data_node} (h : _find_data_node b key kh = some d) :
    b.btype = .BUCKET_LIST ∧
    ∃ n, find_list_node b.list key kh = some n ∧ n.data = d := by
  unfold _find_data_node at h
  cases hbt : b.btype <;> rw [hbt] at h
  · cases h
  · rcases hf : find_list_node b.list key kh with _ | n <;> rw [hf] at h
    · cases h
    · exact ⟨rfl, n, rfl, by simpa using h⟩
  · cases h

theorem list_node_hash_equals_self (kh : Nat) (key : List Nat) (d : data_node)
    (hd : d.key = key) : list_node_hash_equals { key_hash := kh, data := d } kh key = true := by
  simp [list_node_hash_equals, hd]

theorem update_data_node_key (d : data_node) (v : List Nat) :
    (_update_data_node d v).key = d.key := by
  unfold _update_data_node
  split <;> rfl

theorem list_node_hash_equals_update (nd : list_node) (kh : Nat) (key v : List Nat)
    (he : list_node_hash_equals nd kh key = true) :
    list_node_hash_equals { nd with data := _update_data_node nd.data v } kh key = true := by
  unfold list_node_hash_equals at he ⊢
  simpa [update_data_node_key] using he

/-- After updating the first matching node in place, the first match of
the same key and hash is that node with its value updated. -/
theorem find_update_first_match (l : List list_node) (key : List Nat) (kh : Nat)
    (v : List Nat) (n : list_node) (h : find_list_node l key kh = some n) :
    find_list_node (update_first_match l key kh v) key kh =
      some { n with data := _update_data_node n.data v } := by
  induction l with
  | nil => cases h
  | cons hd tl ih =>
      by_cases he : list_node_hash_equals hd kh key = true
      · rw [find_list_node, if_pos he] at h
        injection h with h'
        subst h'
        rw [update_first_match, if_pos he, find_list_node,
          if_pos (list_node_hash_equals_update hd kh key v he)]
      · rw [find_list_node, if_neg he] at h
        rw [update_first_match, if_neg he, find_list_node, if_neg he]
        exact ih h

theorem update_data_node_value {d : data_node} {v : List Nat} (hv : v ≠ []) :
    (_update_data_node d v).data = v := by
  unfold _update_data_node
  rw [if_neg (by simpa using hv)]

/-- Characterization of a successful upsert: the store metadata is
unchanged, well-formedness is preserved, and the target bucket is an
initialized chain bucket in which the key's first match now carries
exactly the new value bytes. -/
theorem upsert_success_spec (st : key_store_state) (idx : Nat) (key : List Nat)
    (kh : Nat) (v : List Nat) (hwf : buckets_wf st) (hk : key ≠ []) (hv : v ≠ [])
    (hs : (upsert_node_to_bucket st idx key kh v).1 = 0) :
    (upsert_node_to_bucket st idx key kh v).2.g_hash_seed = st.g_hash_seed ∧
    (upsert_node_to_bucket st idx key kh v).2.g_bucket_size = st.g_bucket_size ∧
    (upsert_node_to_bucket st idx key kh v).2.pool.is_initialized = true ∧
    (upsert_node_to_bucket st idx key kh v).2.pool.total_blocks = st.pool.total_blocks ∧
    buckets_wf (upsert_node_to_bucket st idx key kh v).2 ∧
    idx < st.pool.total_blocks ∧
    ((upsert_node_to_bucket st idx key kh v).2.pool.hash_buckets_ptr.getD idx
        calloc_bucket).btype = .BUCKET_LIST ∧
    ((upsert_node_to_bucket st idx key kh v).2.pool.hash_buckets_ptr.getD idx
        calloc_bucket).is_initialized = true ∧
    ∃ n, find_list_node
        ((upsert_node_to_bucket st idx key kh v).2.pool.hash_buckets_ptr.getD idx
          calloc_bucket).list key kh = some n ∧ n.data.data = v := by
  have hke : key.isEmpty = false := by simpa using hk
  have hve : v.isEmpty = false := by simpa using hv
  rcases hgb : get_hash_bucket st idx with _ | ⟨b, st1⟩
  · rw [upsert_node_to_bucket, hgb] at hs
    cases hs
  · obtain ⟨hp0, hi0, hbi, hsd1, hbs1, hp1, ht1, hl1, hwf1, hbd1⟩ :=
      get_hash_bucket_spec hwf hgb
    have hil : idx < st1.pool.hash_buckets_ptr.length := by
      rw [hwf1, ht1]; exact hi0
    rcases hfd : _find_data_node b key kh with _ | d
    · -- not found: the add path
      have hfr : _find_node b key kh = (-41, none) := by
        rw [_find_node, hfd]
      have hgb1 : get_hash_bucket st1 idx = some (b, st1) := get_hash_bucket_idem hwf hgb
      have hup : upsert_node_to_bucket st idx key kh v =
          _add_node_to_bucket st1 idx key kh v := by
        simp [upsert_node_to_bucket, hgb, hfr]
      rw [hup] at hs ⊢
      cases hbt : b.btype
      case NONE => simp [_add_node_to_bucket, hgb1, hbt, hke, hve] at hs
      case BUCKET_TREE => simp [_add_node_to_bucket, hgb1, hbt, hke, hve] at hs
      case BUCKET_LIST =>
        have hadd : _add_node_to_bucket st1 idx key kh v =
            (0, set_bucket { st1 with live_data_nodes := st1.live_data_nodes + 1 } idx
              { b with
                  list := { key_hash := kh,
                            data := { key_hash := kh, data := v, key := key } } :: b.list,
                  count := b.count + 1 }) := by
          simp [_add_node_to_bucket, hgb1, hbt, hke, hve]
        rw [hadd]
        have hg : ((0, set_bucket { st1 with live_data_nodes := st1.live_data_nodes + 1 } idx
              { b with
                  list := { key_hash := kh,
                            data := { key_hash := kh, data := v, key := key } } :: b.list,
                  count := b.count + 1 }).2).pool.hash_buckets_ptr.getD idx calloc_bucket =
            { b with
                list := { key_hash := kh,
                          data := { key_hash := kh, data := v, key := key } } :: b.list,
                count := b.count + 1 } := by
          show (st1.pool.hash_buckets_ptr.set idx _).getD idx calloc_bucket = _
          exact getD_set_self _ _ _ hil
        refine ⟨hsd1, hbs1, hp1, ht1, ?_, hi0, ?_, ?_, ?_⟩
        · exact buckets_wf_set_bucket _ idx _ (by unfold buckets_wf; simpa using hwf1)
        · rw [hg]
          exact hbt
        · rw [hg]
          exact hbi
        · refine ⟨{ key_hash := kh, data := { key_hash := kh, data := v, key := key } }, ?_, rfl⟩
          rw [hg]
          rw [find_list_node, if_pos (list_node_hash_equals_self kh key _ rfl)]
    · -- found: the in-place update path
      have hfr : _find_node b key kh = (0, some d) := by
        rw [_find_node, hfd]
      have hup : upsert_node_to_bucket st idx key kh v =
          (0, set_bucket st1 idx
            { b with list := update_first_match b.list key kh v }) := by
        simp [upsert_node_to_bucket, hgb, hfr]
      rw [hup]
      obtain ⟨hbt, n0, hfn0, _⟩ := _find_data_node_some hfd
      have hg : ((0, set_bucket st1 idx
            { b with list := update_first_match b.list key kh v }).2).pool.hash_buckets_ptr.getD
              idx calloc_bucket =
          { b with list := update_first_match b.list key kh v } := by
        show (st1.pool.hash_buckets_ptr.set idx _).getD idx calloc_bucket = _
        exact getD_set_self _ _ _ hil
      refine ⟨hsd1, hbs1, hp1, ht1, buckets_wf_set_bucket _ idx _ hwf1, hi0, ?_, ?_, ?_⟩
      · rw [hg]
        exact hbt
      · rw [hg]
        exact hbi
      · refine ⟨{ n0 with data := _update_data_node n0.data v }, ?_, ?_⟩
        · rw [hg]
          exact find_update_first_match b.list key kh v n0 hfn0
        · exact update_data_node_value hv

theorem get_hash_and_index_none {st : key_store_state} {key : List Nat}
    (h : (_get_hash_and_index st key).2 = none) : (_get_hash_and_index st key).1 ≠ 0 := by
  unfold _get_hash_and_index at h ⊢
  by_cases hh : hash_function_murmur_32 key st.g_hash_seed = U32 - 1
  · rw [if_pos hh]; decide
  · rw [if_neg hh] at h ⊢
    rcases hb : _get_bucket_index st.g_bucket_size
        (hash_function_murmur_32 key st.g_hash_seed) with _ | i
    · show (-71 : Int) ≠ 0
      decide
    · rw [hb] at h
      have h' : some (hash_function_murmur_32 key st.g_hash_seed, i) = none := h
      cases h'

/-- The hash-and-index derivation depends only on the seed and bucket
size, which point operations never change. -/
theorem get_hash_and_index_congr {st st' : key_store_state} (key : List Nat)
    (h1 : st'.g_hash_seed = st.g_hash_seed) (h2 : st'.g_bucket_size = st.g_bucket_size) :
    _get_hash_and_index st' key = _get_hash_and_index st key := by
  unfold _get_hash_and_index
  rw [h1, h2]

/-- Dispatch of `get_key` once the hash and index are derived. -/
theorem get_key_via_index {st : key_store_state} {key : List Nat} {r : Int}
    {kh idx : Nat} (hke : key.isEmpty = false)
    (hgi : _get_hash_and_index st key = (r, some (kh, idx))) :
    get_key st key = find_node_in_bucket st idx key kh := by
  rw [get_key, if_neg (by rw [hke]; simp), hgi]

/-- Dispatch of `set_key` once the hash and index are derived. -/
theorem set_key_via_index {st : key_store_state} {key v : List Nat} {r : Int}
    {kh idx : Nat} (hke : key.isEmpty = false) (hve : v.isEmpty = false)
    (hgi : _get_hash_and_index st key = (r, some (kh, idx))) :
    set_key st key v = upsert_node_to_bucket st idx key kh v := by
  rw [set_key, if_neg (by rw [hke, hve]; simp), hgi]

/-- Dispatch of `delete_key` once the hash and index are derived. -/
theorem delete_key_via_index {st : key_store_state} {key : List Nat} {r : Int}
    {kh idx : Nat} (hke : key.isEmpty = false)
    (hgi : _get_hash_and_index st key = (r, some (kh, idx))) :
    delete_key st key = delete_node_from_bucket st idx key kh := by
  rw [delete_key, if_neg (by rw [hke]; simp), hgi]

/-- A found key makes `find_node_in_bucket` return the copied-out
value. -/
theorem find_node_in_bucket_found {st : key_store_state} {idx : Nat}
    {key : List Nat} {kh : Nat} {b : hash_bucket} {st1 : key_store_state}
    {d : data_node} (hgb : get_hash_bucket st idx = some (b, st1))
    (hfd : _find_data_node b key kh = some d) :
    find_node_in_bucket st idx key kh = (0, st1, get_data_from_node d) := by
  have hfr : _find_node b key kh = (0, some d) := by rw [_find_node, hfd]
  rw [find_node_in_bucket, hgb]
  simp [hfr]

/-! ## Claim C1 — set followed by get round-trips -/

/-- Claim C1: on any well-formed store state, if `set_key(K, V)` returns
success then an immediately following `get_key(K)` returns success with
an output value whose bytes (and hence length) equal `V`'s.  The output
buffer is the fresh copy `get_data_from_node` makes.  Well-formedness
(the bucket array has `total_blocks` slots) is established by every
successful `initialise_key_store` and preserved by every operation. -/
theorem c1_set_then_get_roundtrip (st : key_store_state) (key value : List Nat)
    (hwf : buckets_wf st) (hset : (set_key st key value).1 = 0) :
    (get_key (set_key st key value).2 key).1 = 0 ∧
    (get_key (set_key st key value).2 key).2.2 = some value := by
  by_cases hkv : value.isEmpty = true ∨ key.isEmpty = true
  · rw [set_key, if_pos hkv] at hset
    cases hset
  · obtain ⟨hvne, hkne⟩ := not_or.mp hkv
    have hv : value ≠ [] := by simpa using hvne
    have hk : key ≠ [] := by simpa using hkne
    rcases hgi : _get_hash_and_index st key with ⟨r, o⟩
    rcases o with _ | ⟨kh, idx⟩
    · rw [set_key, if_neg hkv, hgi] at hset
      exact absurd hset (by
        have := @get_hash_and_index_none st key (by rw [hgi])
        rw [hgi] at this
        simpa using this)
    · have hset' : (upsert_node_to_bucket st idx key kh value).1 = 0 := by
        rw [set_key, if_neg hkv, hgi] at hset
        exact hset
      have hst' : (set_key st key value).2 = (upsert_node_to_bucket st idx key kh value).2 := by
        rw [set_key, if_neg hkv, hgi]
      obtain ⟨hsd, hbs, hpi, htb, hwf', hidx, hbt, hbinit, n, hfind, hval⟩ :=
        upsert_success_spec st idx key kh value hwf hk hv hset'
      rw [hst']
      have hgi' : _get_hash_and_index (upsert_node_to_bucket st idx key kh value).2 key =
          (r, some (kh, idx)) := by
        rw [get_hash_and_index_congr key hsd hbs, hgi]
      have hgb' : get_hash_bucket (upsert_node_to_bucket st idx key kh value).2 idx =
          some ((upsert_node_to_bucket st idx key kh value).2.pool.hash_buckets_ptr.getD idx
            calloc_bucket, (upsert_node_to_bucket st idx key kh value).2) :=
        get_hash_bucket_of_initialized hpi (by rw [htb]; exact hidx) hbinit
      have hfd' : _find_data_node
          ((upsert_node_to_bucket st idx key kh value).2.pool.hash_buckets_ptr.getD idx
            calloc_bucket) key kh = some n.data := by
        unfold _find_data_node
        rw [hbt, hfind]
        rfl
      have hfr' : _find_node
          ((upsert_node_to_bucket st idx key kh value).2.pool.hash_buckets_ptr.getD idx
            calloc_bucket) key kh = (0, some n.data) := by
        rw [_find_node, hfd']
      have hke' : key.isEmpty = false := by simpa using hkne
      have hget : get_key (upsert_node_to_bucket st idx key kh value).2 key =
          (0, (upsert_node_to_bucket st idx key kh value).2, get_data_from_node n.data) := by
        rw [get_key_via_index hke' hgi', find_node_in_bucket_found hgb' hfd']
      rw [hget]
      refine ⟨rfl, ?_⟩
      show get_data_from_node n.data = some value
      rw [get_data_from_node, if_neg (by rw [hval]; exact hv), hval]

/-- Witness for `c1_set_then_get_roundtrip`: on the freshly initialized
store, `set("a", [1,2])` succeeds and `get("a")` returns `[1,2]`. -/
theorem c1_set_then_get_roundtrip_witness :
    (buckets_wf example_store_8 ∧ (set_key example_store_8 [97] [1, 2]).1 = 0) ∧
    (get_key (set_key example_store_8 [97] [1, 2]).2 [97]).1 = 0 ∧
    (get_key (set_key example_store_8 [97] [1, 2]).2 [97]).2.2 = some [1, 2] :=
  ⟨⟨by decide, by decide⟩,
   c1_set_then_get_roundtrip example_store_8 [97] [1, 2] (by decide) (by decide)⟩

/-! ## Result-set lemmas: the bucket operations can only produce the
error codes visible in their source. -/

theorem delete_scan_result (l : List list_node) (key : List Nat) (kh : Nat) :
    (delete_scan l key kh).1 = 0 ∨ (delete_scan l key kh).1 = -41 := by
  induction l with
  | nil => right; rfl
  | cons hd tl ih =>
      by_cases he : list_node_hash_equals hd kh key = true
      · rw [delete_scan, if_pos he]; left; rfl
      · rw [delete_scan, if_neg he]; exact ih

theorem delete_scan_not_found (l : List list_node) (key : List Nat) (kh : Nat)
    (h : find_list_node l key kh = none) : (delete_scan l key kh).1 = -41 := by
  induction l with
  | nil => rfl
  | cons hd tl ih =>
      by_cases he : list_node_hash_equals hd kh key = true
      · rw [find_list_node, if_pos he] at h; cases h
      · rw [find_list_node, if_neg he] at h
        rw [delete_scan, if_neg he]
        exact ih h

theorem delete_list_node_result (l : List list_node) (key : List Nat) (kh : Nat) :
    (delete_list_node l key kh).1 = 0 ∨ (delete_list_node l key kh).1 = -21 ∨
    (delete_list_node l key kh).1 = -41 := by
  rw [delete_list_node]
  by_cases he : l.isEmpty = true
  · rw [if_pos he]; right; left; rfl
  · rw [if_neg he]
    rcases delete_scan_result l key kh with h | h
    · left; exact h
    · right; right; exact h

theorem upsert_result_set (st : key_store_state) (idx : Nat) (key : List Nat)
    (kh : Nat) (v : List Nat) :
    (upsert_node_to_bucket st idx key kh v).1 = 0 ∨
    (upsert_node_to_bucket st idx key kh v).1 = -20 ∨
    (upsert_node_to_bucket st idx key kh v).1 = -40 ∨
    (upsert_node_to_bucket st idx key kh v).1 = -43 := by
  rcases hgb : get_hash_bucket st idx with _ | ⟨b, st1⟩
  · simp [upsert_node_to_bucket, hgb]
  · rcases hfd : _find_data_node b key kh with _ | d
    · have hfr : _find_node b key kh = (-41, none) := by rw [_find_node, hfd]
      have hup : upsert_node_to_bucket st idx key kh v =
          _add_node_to_bucket st1 idx key kh v := by
        simp [upsert_node_to_bucket, hgb, hfr]
      rw [hup]
      rcases hgb1 : get_hash_bucket st1 idx with _ | ⟨b1, st2⟩
      · simp [_add_node_to_bucket, hgb1]
      · by_cases hkv : key = [] ∨ v = []
        · simp [_add_node_to_bucket, hgb1, hkv]
        · cases hbt : b1.btype <;>
            simp [_add_node_to_bucket, hgb1, hkv, hbt]
    · have hfr : _find_node b key kh = (0, some d) := by rw [_find_node, hfd]
      simp [upsert_node_to_bucket, hgb, hfr]

theorem find_result_set (st : key_store_state) (idx : Nat) (key : List Nat) (kh : Nat) :
    (find_node_in_bucket st idx key kh).1 = 0 ∨
    (find_node_in_bucket st idx key kh).1 = -40 ∨
    (find_node_in_bucket st idx key kh).1 = -41 := by
  rcases hgb : get_hash_bucket st idx with _ | ⟨b, st1⟩
  · simp [find_node_in_bucket, hgb]
  · rcases hfd : _find_data_node b key kh with _ | d
    · have hfr : _find_node b key kh = (-41, none) := by rw [_find_node, hfd]
      simp [find_node_in_bucket, hgb, hfr]
    · have hfr : _find_node b key kh = (0, some d) := by rw [_find_node, hfd]
      simp [find_node_in_bucket, hgb, hfr]

theorem delete_result_set (st : key_store_state) (idx : Nat) (key : List Nat) (kh : Nat) :
    (delete_node_from_bucket st idx key kh).1 = 0 ∨
    (delete_node_from_bucket st idx key kh).1 = -21 ∨
    (delete_node_from_bucket st idx key kh).1 = -40 ∨
    (delete_node_from_bucket st idx key kh).1 = -41 ∨
    (delete_node_from_bucket st idx key kh).1 = -43 := by
  rcases hgb : get_hash_bucket st idx with _ | ⟨b, st1⟩
  · simp [delete_node_from_bucket, hgb]
  · cases hbt : b.btype
    · simp [delete_node_from_bucket, hgb, hbt]
    · rcases delete_list_node_result b.list key kh with h | h | h <;>
        by_cases h0 : (delete_list_node b.list key kh).1 = 0 <;>
        simp [delete_node_from_bucket, hgb, hbt, h0] <;> omega
    · simp [delete_node_from_bucket, hgb, hbt]

/-! ## Claim C10 — the `UINT32_MAX` hash sentinel -/

/-- Claim C10: for a valid key (and, for `set`, a valid value), each of
`set_key`, `get_key` and `delete_key` fails with `-70`
(`HashComputationFailure`) exactly when the key's MurmurHash under the
store's seed equals `UINT32_MAX`; in that case the operation returns
before reaching any bucket and the store state is unchanged, so such a
key can never be stored or retrieved. -/
theorem c10_hash_sentinel_iff (st : key_store_state) (key value : List Nat)
    (hk : key ≠ []) (hv : value ≠ []) :
    ((set_key st key value).1 = -70 ↔
      hash_function_murmur_32 key st.g_hash_seed = U32 - 1) ∧
    ((get_key st key).1 = -70 ↔
      hash_function_murmur_32 key st.g_hash_seed = U32 - 1) ∧
    ((delete_key st key).1 = -70 ↔
      hash_function_murmur_32 key st.g_hash_seed = U32 - 1) ∧
    (hash_function_murmur_32 key st.g_hash_seed = U32 - 1 →
      (set_key st key value).2 = st ∧ (get_key st key).2.1 = st ∧
      (get_key st key).2.2 = none ∧ (delete_key st key).2 = st) := by
  have hke : key.isEmpty = false := by simpa using hk
  have hve : value.isEmpty = false := by simpa using hv
  by_cases hh : hash_function_murmur_32 key st.g_hash_seed = U32 - 1
  · have hgi : _get_hash_and_index st key = (-70, none) := by
      rw [_get_hash_and_index, if_pos hh]
    have hset : set_key st key value = (-70, st) := by
      rw [set_key, if_neg (by rw [hke, hve]; simp), hgi]
    have hget : get_key st key = (-70, st, none) := by
      rw [get_key, if_neg (by rw [hke]; simp), hgi]
    have hdel : delete_key st key = (-70, st) := by
      rw [delete_key, if_neg (by rw [hke]; simp), hgi]
    rw [hset, hget, hdel]
    exact ⟨by simp [hh], by simp [hh], by simp [hh],
      fun _ => ⟨rfl, rfl, rfl, rfl⟩⟩
  · rcases hb : _get_bucket_index st.g_bucket_size
        (hash_function_murmur_32 key st.g_hash_seed) with _ | idx
    · have hgi : _get_hash_and_index st key = (-71, none) := by
        rw [_get_hash_and_index, if_neg hh, hb]
      have hset : set_key st key value = (-71, st) := by
        rw [set_key, if_neg (by rw [hke, hve]; simp), hgi]
      have hget : get_key st key = (-71, st, none) := by
        rw [get_key, if_neg (by rw [hke]; simp), hgi]
      have hdel : delete_key st key = (-71, st) := by
        rw [delete_key, if_neg (by rw [hke]; simp), hgi]
      rw [hset, hget, hdel]
      refine ⟨by simpa using hh, by simpa using hh, by simpa using hh, fun h => absurd h hh⟩
    · have hgi : _get_hash_and_index st key =
          (0, some (hash_function_murmur_32 key st.g_hash_seed, idx)) := by
        rw [_get_hash_and_index, if_neg hh, hb]
      have hset := set_key_via_index hke hve hgi
      have hget := get_key_via_index hke hgi
      have hdel := delete_key_via_index hke hgi
      rw [hset, hget, hdel]
      refine ⟨?_, ?_, ?_, fun h => absurd h hh⟩
      · constructor
        · intro h70
          rcases upsert_result_set st idx key
              (hash_function_murmur_32 key st.g_hash_seed) value with h | h | h | h <;>
            rw [h70] at h <;> cases h
        · intro h; exact absurd h hh
      · constructor
        · intro h70
          rcases find_result_set st idx key
              (hash_function_murmur_32 key st.g_hash_seed) with h | h | h <;>
            rw [h70] at h <;> cases h
        · intro h; exact absurd h hh
      · constructor
        · intro h70
          rcases delete_result_set st idx key
              (hash_function_murmur_32 key st.g_hash_seed) with h | h | h | h | h <;>
            rw [h70] at h <;> cases h
        · intro h; exact absurd h hh

/-- Witness for `c10_hash_sentinel_iff` on the freshly initialized
store with key "a" and value `[1]` (whose hash is not the sentinel, so
all three biconditionals have both sides false). -/
theorem c10_hash_sentinel_iff_witness :
    (([97] : List Nat) ≠ [] ∧ ([1] : List Nat) ≠ []) ∧
    ((set_key example_store_8 [97] [1]).1 = -70 ↔
      hash_function_murmur_32 [97] example_store_8.g_hash_seed = U32 - 1) :=
  ⟨⟨by decide, by decide⟩,
   (c10_hash_sentinel_iff example_store_8 [97] [1] (by decide) (by decide)).1⟩

/-! ## Claim C4 — delete of an absent key, amended -/

/-- On a chain bucket, the delete result is exactly the
`delete_list_node` result. -/
theorem delete_node_from_bucket_result {st st1 : key_store_state} {idx : Nat}
    (key : List Nat) (kh : Nat) {b : hash_bucket}
    (hgb : get_hash_bucket st idx = some (b, st1))
    (hbt : b.btype = .BUCKET_LIST) :
    (delete_node_from_bucket st idx key kh).1 = (delete_list_node b.list key kh).1 := by
  by_cases h0 : (delete_list_node b.list key kh).1 = 0
  · simp [delete_node_from_bucket, hgb, hbt, h0]
  · simp [delete_node_from_bucket, hgb, hbt, h0]

/-- Claim C4, amended: in single-threaded (lazy-initialization) mode —
and in fact whenever the target bucket is either never-initialized or
holds an empty or key-free chain — `delete_key` on a valid key whose
bucket has never been initialized lazily initializes the bucket and
returns `-21` (the code produced by `delete_list_node`'s empty-chain
guard, elsewhere used for invalid configuration), not `NotFound`
(`-41`); the same `-21` results for any empty chain, while an absent
key in a non-empty chain yields `NotFound` (`-41`).  In no case does
delete return `BucketUninitialized` (`-40`). -/
theorem c4_delete_absent_key_result (st : key_store_state) (key : List Nat)
    (r : Int) (kh idx : Nat) (hk : key ≠ [])
    (hgi : _get_hash_and_index st key = (r, some (kh, idx)))
    (hpool : st.pool.is_initialized = true)
    (hidx : idx < st.pool.total_blocks)
    (hbt : (st.pool.hash_buckets_ptr.getD idx calloc_bucket).is_initialized = true →
      (st.pool.hash_buckets_ptr.getD idx calloc_bucket).btype = .BUCKET_LIST) :
    (((st.pool.hash_buckets_ptr.getD idx calloc_bucket).is_initialized = false ∨
        (st.pool.hash_buckets_ptr.getD idx calloc_bucket).list = []) →
      (delete_key st key).1 = -21) ∧
    (((st.pool.hash_buckets_ptr.getD idx calloc_bucket).is_initialized = true ∧
        (st.pool.hash_buckets_ptr.getD idx calloc_bucket).list ≠ [] ∧
        find_list_node (st.pool.hash_buckets_ptr.getD idx calloc_bucket).list key kh
          = none) →
      (delete_key st key).1 = -41) ∧
    (delete_key st key).1 ≠ -40 := by
  have hke : key.isEmpty = false := by simpa using hk
  have hdel := delete_key_via_index hke hgi
  rw [hdel]
  by_cases hbi : (st.pool.hash_buckets_ptr.getD idx calloc_bucket).is_initialized = true
  · have hgb : get_hash_bucket st idx =
        some (st.pool.hash_buckets_ptr.getD idx calloc_bucket, st) :=
      get_hash_bucket_of_initialized hpool hidx hbi
    have hres := delete_node_from_bucket_result key kh hgb (hbt hbi)
    refine ⟨?_, ?_, ?_⟩
    · rintro (h | h)
      · rw [h] at hbi; cases hbi
      · rw [hres, delete_list_node, if_pos (by rw [h]; rfl)]
    · rintro ⟨_, hne, hfind⟩
      rw [hres, delete_list_node, if_neg (by simpa using hne)]
      exact delete_scan_not_found _ key kh hfind
    · rw [hres]
      rcases delete_list_node_result
          (st.pool.hash_buckets_ptr.getD idx calloc_bucket).list key kh
        with h | h | h <;> rw [h] <;> decide
  · have hbi' : (st.pool.hash_buckets_ptr.getD idx calloc_bucket).is_initialized = false := by
      simpa using hbi
    have hni : ¬(st.pool.is_initialized = false ∨ st.pool.total_blocks ≤ idx) := by
      simp [hpool]; omega
    have hgb : get_hash_bucket st idx =
        some (fresh_bucket, set_bucket st idx fresh_bucket) := by
      rw [get_hash_bucket, if_neg hni]
      show (if (st.pool.hash_buckets_ptr.getD idx calloc_bucket).is_initialized = true
          then some (st.pool.hash_buckets_ptr.getD idx calloc_bucket, st)
          else some (fresh_bucket, set_bucket st idx fresh_bucket)) = _
      rw [hbi']
      simp
    have hres := delete_node_from_bucket_result key kh hgb rfl
    have h21 : (delete_node_from_bucket st idx key kh).1 = -21 := by
      rw [hres]
      rfl
    exact ⟨fun _ => h21, fun h => absurd h.1 (by rw [hbi']; decide), by rw [h21]; decide⟩

/-- Witness for `c4_delete_absent_key_result`: the freshly initialized
single-threaded store, key "a" (whose bucket has never been
initialized) — delete returns `-21` and not `-40`. -/
theorem c4_delete_absent_key_result_witness :
    (([97] : List Nat) ≠ [] ∧
     _get_hash_and_index example_store_8 [97] = (0, some (1485495528, 0)) ∧
     example_store_8.pool.is_initialized = true ∧
     0 < example_store_8.pool.total_blocks ∧
     (example_store_8.pool.hash_buckets_ptr.getD 0 calloc_bucket).is_initialized
       = false) ∧
    (delete_key example_store_8 [97]).1 = -21 ∧
    (delete_key example_store_8 [97]).1 ≠ -40 := by
  have h := c4_delete_absent_key_result example_store_8 [97] 0 1485495528 0
    (by decide) (by decide) (by decide) (by decide) (by decide)
  exact ⟨⟨by decide, by decide, by decide, by decide, by decide⟩,
    h.1 (Or.inl (by decide)), h.2.2⟩

/-! ## Claim C9 — the bucket `count` field tracks the chain length -/

/-- The per-bucket count invariant together with the structural
well-formedness that `initialise_key_store` establishes. -/
def StInv (st : key_store_state) : Prop :=
  buckets_wf st ∧
  ∀ b ∈ st.pool.hash_buckets_ptr, b.is_initialized = false ∨ b.count = b.list.length

theorem count_invariant_of_StInv {st : key_store_state} (h : StInv st) :
    count_invariant st = true := by
  rw [count_invariant, List.all_eq_true]
  intro b hb
  rcases h.2 b hb with h' | h' <;> simp [h']

theorem getD_mem {l : List hash_bucket} {i : Nat} (h : i < l.length) :
    l.getD i calloc_bucket ∈ l := by
  rw [List.getD_eq_getElem?_getD, List.getElem?_eq_getElem h]
  exact List.getElem_mem h

theorem StInv_set_bucket {st : key_store_state} {i : Nat} {b' : hash_bucket}
    (h : StInv st) (hb : b'.is_initialized = false ∨ b'.count = b'.list.length) :
    StInv (set_bucket st i b') := by
  refine ⟨buckets_wf_set_bucket st i b' h.1, ?_⟩
  intro b hbmem
  rcases List.mem_or_eq_of_mem_set hbmem with hm | rfl
  · exact h.2 b hm
  · exact hb

theorem StInv_live {st : key_store_state} (h : StInv st) (n : Nat) :
    StInv { st with live_data_nodes := n } := h

/-- A successful bucket fetch preserves the invariant and returns a
bucket whose count matches its chain length. -/
theorem get_hash_bucket_StInv {st : key_store_state} {i : Nat} {b : hash_bucket}
    {st1 : key_store_state} (h : StInv st)
    (hgb : get_hash_bucket st i = some (b, st1)) :
    StInv st1 ∧ b.count = b.list.length := by
  obtain ⟨hp0, hi0, hbi, _, _, _, _, _, _, hbd⟩ := get_hash_bucket_spec h.1 hgb
  unfold get_hash_bucket at hgb
  rw [if_neg (by simp [hp0]; omega)] at hgb
  by_cases hinit : (st.pool.hash_buckets_ptr.getD i calloc_bucket).is_initialized = true
  · rw [if_pos hinit] at hgb
    obtain ⟨hb, hst⟩ := Prod.mk.injEq .. ▸ Option.some.injEq .. ▸ hgb
    subst hst
    refine ⟨h, ?_⟩
    have hmem := @getD_mem st.pool.hash_buckets_ptr i (by rw [h.1]; exact hi0)
    rcases h.2 _ hmem with h' | h'
    · rw [hb] at h'
      rw [h'] at hbi
      cases hbi
    · rw [← hb]; exact h'
  · rw [if_neg (by simpa using hinit)] at hgb
    obtain ⟨hb, hst⟩ := Prod.mk.injEq .. ▸ Option.some.injEq .. ▸ hgb
    subst hst
    refine ⟨StInv_set_bucket h (Or.inr rfl), ?_⟩
    rw [← hb]
    rfl

theorem update_first_match_length (l : List list_node) (key : List Nat) (kh : Nat)
    (v : List Nat) : (update_first_match l key kh v).length = l.length := by
  induction l with
  | nil => rfl
  | cons hd tl ih =>
      by_cases he : list_node_hash_equals hd kh key = true
      · rw [update_first_match, if_pos he]
        rfl
      · rw [update_first_match, if_neg he]
        simpa using ih

theorem delete_scan_length (l : List list_node) (key : List Nat) (kh : Nat)
    (h : (delete_scan l key kh).1 = 0) :
    (delete_scan l key kh).2.1.length + 1 = l.length := by
  induction l with
  | nil => cases h
  | cons hd tl ih =>
      by_cases he : list_node_hash_equals hd kh key = true
      · rw [delete_scan, if_pos he]
        rfl
      · rw [delete_scan, if_neg he] at h ⊢
        simpa using ih h

theorem upsert_StInv (st : key_store_state) (idx : Nat) (key : List Nat)
    (kh : Nat) (v : List Nat) (h : StInv st) :
    StInv (upsert_node_to_bucket st idx key kh v).2 := by
  rcases hgb : get_hash_bucket st idx with _ | ⟨b, st1⟩
  · rw [upsert_node_to_bucket, hgb]
    exact h
  · obtain ⟨h1, hbcnt⟩ := get_hash_bucket_StInv h hgb
    rcases hfd : _find_data_node b key kh with _ | d
    · have hfr : _find_node b key kh = (-41, none) := by rw [_find_node, hfd]
      have hup : upsert_node_to_bucket st idx key kh v =
          _add_node_to_bucket st1 idx key kh v := by
        simp [upsert_node_to_bucket, hgb, hfr]
      rw [hup]
      rcases hgb1 : get_hash_bucket st1 idx with _ | ⟨b1, st2⟩
      · rw [_add_node_to_bucket, hgb1]
        exact h1
      · obtain ⟨h2, hbcnt1⟩ := get_hash_bucket_StInv h1 hgb1
        by_cases hkv : key = [] ∨ v = []
        · have : _add_node_to_bucket st1 idx key kh v = (-20, st2) := by
            simp [_add_node_to_bucket, hgb1, hkv]
          rw [this]
          exact h2
        · cases hbt : b1.btype
          · have : _add_node_to_bucket st1 idx key kh v =
                (-43, { st2 with live_data_nodes := st2.live_data_nodes + 1 - 1 }) := by
              simp [_add_node_to_bucket, hgb1, hbt, hkv]
            rw [this]
            exact StInv_live h2 _
          · have : _add_node_to_bucket st1 idx key kh v =
                (0, set_bucket { st2 with live_data_nodes := st2.live_data_nodes + 1 } idx
                  { b1 with
                      list := { key_hash := kh,
                                data := { key_hash := kh, data := v, key := key } } :: b1.list,
                      count := b1.count + 1 }) := by
              simp [_add_node_to_bucket, hgb1, hbt, hkv]
            rw [this]
            exact StInv_set_bucket (StInv_live h2 _)
              (Or.inr (by simp [hbcnt1]))
          · have : _add_node_to_bucket st1 idx key kh v =
                (-43, { st2 with live_data_nodes := st2.live_data_nodes + 1 - 1 }) := by
              simp [_add_node_to_bucket, hgb1, hbt, hkv]
            rw [this]
            exact StInv_live h2 _
    · have hfr : _find_node b key kh = (0, some d) := by rw [_find_node, hfd]
      have hup : upsert_node_to_bucket st idx key kh v =
          (0, set_bucket st1 idx
            { b with list := update_first_match b.list key kh v }) := by
        simp [upsert_node_to_bucket, hgb, hfr]
      rw [hup]
      exact StInv_set_bucket h1
        (Or.inr (by rw [update_first_match_length]; exact hbcnt))

theorem find_StInv (st : key_store_state) (idx : Nat) (key : List Nat)
    (kh : Nat) (h : StInv st) :
    StInv (find_node_in_bucket st idx key kh).2.1 := by
  rcases hgb : get_hash_bucket st idx with _ | ⟨b, st1⟩
  · rw [find_node_in_bucket, hgb]
    exact h
  · obtain ⟨h1, -⟩ := get_hash_bucket_StInv h hgb
    rcases hfd : _find_data_node b key kh with _ | d
    · have hfr : _find_node b key kh = (-41, none) := by rw [_find_node, hfd]
      have : find_node_in_bucket st idx key kh = (-41, st1, none) := by
        simp [find_node_in_bucket, hgb, hfr]
      rw [this]
      exact h1
    · have hfr : _find_node b key kh = (0, some d) := by rw [_find_node, hfd]
      have : find_node_in_bucket st idx key kh = (0, st1, get_data_from_node d) := by
        simp [find_node_in_bucket, hgb, hfr]
      rw [this]
      exact h1

theorem delete_StInv (st : key_store_state) (idx : Nat) (key : List Nat)
    (kh : Nat) (h : StInv st) :
    StInv (delete_node_from_bucket st idx key kh).2 := by
  rcases hgb : get_hash_bucket st idx with _ | ⟨b, st1⟩
  · rw [delete_node_from_bucket, hgb]
    exact h
  · obtain ⟨h1, hbcnt⟩ := get_hash_bucket_StInv h hgb
    cases hbt : b.btype
    case NONE =>
      have : delete_node_from_bucket st idx key kh = (-43, st1) := by
        simp [delete_node_from_bucket, hgb, hbt]
      rw [this]; exact h1
    case BUCKET_TREE =>
      have : delete_node_from_bucket st idx key kh = (-43, st1) := by
        simp [delete_node_from_bucket, hgb, hbt]
      rw [this]; exact h1
    case BUCKET_LIST =>
      by_cases h0 : (delete_list_node b.list key kh).1 = 0
      · have hstep : delete_node_from_bucket st idx key kh =
            (0, set_bucket st1 idx
              { b with list := (delete_list_node b.list key kh).2.1,
                       count := b.count - 1 }) := by
          simp [delete_node_from_bucket, hgb, hbt, h0]
        rw [hstep]
        refine StInv_set_bucket h1 (Or.inr ?_)
        have hne : b.list.isEmpty = false := by
          cases hl : b.list.isEmpty
          · rfl
          · rw [delete_list_node, if_pos hl] at h0
            cases h0
        have hscan : delete_list_node b.list key kh = delete_scan b.list key kh := by
          rw [delete_list_node, if_neg (by rw [hne]; simp)]
        rw [hscan] at h0 ⊢
        have hlen := delete_scan_length b.list key kh h0
        simp only
        omega
      · have hstep : delete_node_from_bucket st idx key kh =
            ((delete_list_node b.list key kh).1, st1) := by
          simp [delete_node_from_bucket, hgb, hbt, h0]
        rw [hstep]
        exact h1

theorem apply_op_StInv (st : key_store_state) (op : key_store_op) (h : StInv st) :
    StInv (apply_op st op) := by
  cases op with
  | set key v =>
      show StInv (set_key st key v).2
      by_cases hkv : v.isEmpty = true ∨ key.isEmpty = true
      · rw [set_key, if_pos hkv]; exact h
      · rw [set_key, if_neg hkv]
        rcases hgi : _get_hash_and_index st key with ⟨r, _ | ⟨kh, idx⟩⟩
        · exact h
        · exact upsert_StInv st idx key kh v h
  | get key =>
      show StInv (get_key st key).2.1
      by_cases hk : key.isEmpty = true
      · rw [get_key, if_pos hk]; exact h
      · rw [get_key, if_neg hk]
        rcases hgi : _get_hash_and_index st key with ⟨r, _ | ⟨kh, idx⟩⟩
        · exact h
        · exact find_StInv st idx key kh h
  | del key =>
      show StInv (delete_key st key).2
      by_cases hk : key.isEmpty = true
      · rw [delete_key, if_pos hk]; exact h
      · rw [delete_key, if_neg hk]
        rcases hgi : _get_hash_and_index st key with ⟨r, _ | ⟨kh, idx⟩⟩
        · exact h
        · exact delete_StInv st idx key kh h

theorem apply_ops_StInv (ops : List key_store_op) (st : key_store_state)
    (h : StInv st) : StInv (apply_ops st ops) := by
  induction ops generalizing st with
  | nil => exact h
  | cons op rest ih =>
      rw [apply_ops, List.foldl_cons]
      exact ih (apply_op st op) (apply_op_StInv st op h)

theorem initialise_hash_buckets_not_pow (pool : hash_bucket_memory_pool) (B : Nat)
    (c : Bool) (hpow : _is_power_of_two B = false) :
    initialise_hash_buckets pool B c = (-21, pool) := by
  rw [initialise_hash_buckets, if_pos (by rw [hpow])]

theorem initialise_hash_buckets_fresh (B : Nat) (c : Bool)
    (hpow : _is_power_of_two B = true) :
    initialise_hash_buckets
      { hash_buckets_ptr := [], total_blocks := 0,
        is_initialized := false, is_concurrency_enabled := false } B c =
      (0, { hash_buckets_ptr :=
              if c then List.replicate B fresh_bucket else List.replicate B calloc_bucket,
            total_blocks := B, is_initialized := true, is_concurrency_enabled := c }) := by
  rw [initialise_hash_buckets, if_neg (by rw [hpow]; simp)]
  rfl

/-- A successful init yields a state satisfying the invariant. -/
theorem initialise_key_store_StInv {B : Nat} {f : ℚ} {c : Bool} {seed : Nat}
    {st0 : key_store_state}
    (h : initialise_key_store B f c seed = (0, some st0)) : StInv st0 := by
  by_cases hg : B = 0 ∨ f < 0 ∨ 1 < f
  · rw [initialise_key_store, if_pos hg] at h
    simp at h
  · by_cases hpow : _is_power_of_two B = true
    · have hfb := initialise_hash_buckets_fresh B c hpow
      rw [initialise_key_store, if_neg hg] at h
      simp only [hfb] at h
      by_cases hmm : initialize_memory_manager
          { bucket_size := B, pre_allocation_factor := f,
            allocate_list_pool := true, allocate_tree_pool := false,
            is_concurrency_enabled := c } = 0
      · rw [if_neg (by simp), if_neg (by simp [hmm])] at h
        obtain ⟨-, h2⟩ := Prod.mk.injEq .. ▸ h
        obtain rfl := (Option.some.injEq .. ▸ h2).symm
        constructor
        · show (if c then _ else _ : List hash_bucket).length = B
          cases c <;> simp
        · intro b hb
          cases c with
          | true =>
              have := List.eq_of_mem_replicate (by simpa using hb)
              subst this
              exact Or.inr rfl
          | false =>
              have := List.eq_of_mem_replicate (by simpa using hb)
              subst this
              exact Or.inl rfl
      · rw [if_neg (by simp), if_pos (by simpa using hmm)] at h
        simp at h
    · have hfb := initialise_hash_buckets_not_pow
        { hash_buckets_ptr := [], total_blocks := 0,
          is_initialized := false, is_concurrency_enabled := false } B c
        (by simpa using hpow)
      rw [initialise_key_store, if_neg hg] at h
      simp only [hfb] at h
      simp at h

/-- Claim C9: after a successful `initialise_key_store` and any
sequence of public `set` / `get` / `delete` operations, every
initialized bucket's `count` field equals the number of chain nodes
reachable from its chain head (a successful insert adds one chain node
and increments the count, a successful delete removes one and
decrements it, and all other operations leave both unchanged). -/
theorem c9_bucket_count_invariant (B : Nat) (f : ℚ) (c : Bool) (seed : Nat)
    (st0 : key_store_state) (ops : List key_store_op)
    (hinit : initialise_key_store B f c seed = (0, some st0)) :
    count_invariant (apply_ops st0 ops) = true :=
  count_invariant_of_StInv
    (apply_ops_StInv ops st0 (initialise_key_store_StInv hinit))

/-- Witness for `c9_bucket_count_invariant`: the freshly initialized
store with an insert, a delete and a lookup. -/
theorem c9_bucket_count_invariant_witness :
    initialise_key_store 8 (mkRat 1 2) false 0 = (0, some example_store_8) ∧
    count_invariant (apply_ops example_store_8
      [.set [97] [1], .set [98] [2], .del [97], .get [98]]) = true :=
  ⟨by decide,
   c9_bucket_count_invariant 8 (mkRat 1 2) false 0 example_store_8
     [.set [97] [1], .set [98] [2], .del [97], .get [98]] (by decide)⟩

end Keystore
